import Mathlib

/-!
Verification of nerian_stereo: the frame publication pipeline of `StereoNodeBase`

A shallow embedding of `src/src/nerian_stereo_node_base.cpp` and the properties
of it that its specification states.

Conventions of the embedding

* A C array or `std::vector` is a `List`; `a[i]` is `rd a i`, and `a[i] = v` is
  `List.set a i v`.  Reading or writing past the end is undefined in C++; the
  theorems carry the length hypotheses under which every access is in bounds.
* A `float` is its 32-bit pattern (`F32`); the order relations decode it to the
  value it denotes (`F32.toVal`), so NaN, the infinities and the zeros behave as
  in IEEE 754.  A `double` is kept as the value it denotes (`FVal`).
* `int` image dimensions and point counts are natural numbers.  The source
  computes `width*height*4` in `int`; beyond `INT_MAX` C++ leaves the behaviour
  undefined, and below it the `int` value is the natural number used here.
  Unsigned and narrowing arithmetic, which wraps, is written with `%`.
* `ros::Time` is a number of nanoseconds.
-/

namespace NerianStereo

/-! ## Floating point cells -/

/-- A 32-bit cell of a buffer, given by its bit pattern.  Float code reads it as
an IEEE 754 binary32 number, the colour packing as an unsigned integer. -/
structure F32 where
  bits : Nat
deriving DecidableEq, Repr

instance : Inhabited F32 := ⟨⟨0⟩⟩

/-- The value an IEEE 754 number denotes, as far as comparisons can tell. -/
inductive FVal where
  | nan
  | negInf
  | finite (q : ℚ)
  | posInf
deriving DecidableEq

/-- Decoding of a binary32 bit pattern: sign bit 31, exponent bits 30..23,
fraction bits 22..0. -/
def F32.toVal (w : F32) : FVal :=
  let sign : Nat := (w.bits / 2 ^ 31) % 2
  let e : Nat := (w.bits / 2 ^ 23) % 256
  let m : Nat := w.bits % 2 ^ 23
  if e = 255 then
    if m = 0 then (if sign = 0 then FVal.posInf else FVal.negInf) else FVal.nan
  else
    let mag : ℚ :=
      if e = 0 then (m : ℚ) / 2 ^ 149 else ((2 ^ 23 + m : Nat) : ℚ) * 2 ^ e / 2 ^ 150
    FVal.finite (if sign = 0 then mag else -mag)

/-- The C++ operator `a > b` on floating point values: false as soon as one
side is NaN. -/
def FVal.gt : FVal → FVal → Bool
  | .nan, _ => false
  | _, .nan => false
  | .posInf, .posInf => false
  | .posInf, _ => true
  | _, .posInf => false
  | .negInf, _ => false
  | .finite _, .negInf => true
  | .finite a, .finite b => decide (b < a)

/-- The C++ operator `a < b` on floating point values. -/
def FVal.lt (a b : FVal) : Bool := FVal.gt b a

/-- The pattern of `std::numeric_limits<float>::quiet_NaN()`. -/
def quietNaN : F32 := ⟨0x7FC00000⟩

/-- Unary minus on a `float`: the sign bit is flipped. -/
def F32.neg (w : F32) : F32 := ⟨w.bits ^^^ 2 ^ 31⟩

/-- The element `a[i]` of a buffer. -/
def rd (a : List F32) (i : Nat) : F32 := a.getD i default

/-! ## Coordinate remap (`qMatrixToRosCoords`, lines 334-346) -/

/-- The sixteen assignments of `StereoNodeBase::qMatrixToRosCoords(src, dst)`,
in source order; the result is the array `dst` afterwards. -/
def qMatrixToRosCoords (src dst : List F32) : List F32 :=
  let dst := dst.set 0 (rd src 8)
  let dst := dst.set 1 (rd src 9)
  let dst := dst.set 2 (rd src 10)
  let dst := dst.set 3 (rd src 11)
  let dst := dst.set 4 (rd src 0).neg
  let dst := dst.set 5 (rd src 1).neg
  let dst := dst.set 6 (rd src 2).neg
  let dst := dst.set 7 (rd src 3).neg
  let dst := dst.set 8 (rd src 4).neg
  let dst := dst.set 9 (rd src 5).neg
  let dst := dst.set 10 (rd src 6).neg
  let dst := dst.set 11 (rd src 7).neg
  let dst := dst.set 12 (rd src 12)
  let dst := dst.set 13 (rd src 13)
  let dst := dst.set 14 (rd src 14)
  let dst := dst.set 15 (rd src 15)
  dst

/-! ## Depth clamping (`copyPointCloudClamped`, lines 520-534) -/

/-- The body of the loop of `copyPointCloudClamped<coord>` for the point at
`srcPtr = src + 4*k`, `dstPtr = dst + 4*k`.  `maxDepth` is the member the
comparison `srcPtr[coord] > maxDepth` reads; it is declared in the header, and
only the value it denotes enters the comparison. -/
def clampPoint (coord : Nat) (maxDepth : FVal) (src dst : List F32) (k : Nat) : List F32 :=
  if FVal.gt (rd src (4 * k + coord)).toVal maxDepth then
    let dst := dst.set (4 * k) quietNaN
    let dst := dst.set (4 * k + 1) quietNaN
    dst.set (4 * k + 2) quietNaN
  else
    let dst := dst.set (4 * k) (rd src (4 * k))
    let dst := dst.set (4 * k + 1) (rd src (4 * k + 1))
    dst.set (4 * k + 2) (rd src (4 * k + 2))

/-- The loop `for (srcPtr = src, dstPtr = dst; srcPtr < endPtr; srcPtr += 4, dstPtr += 4)`
with `n` iterations left, standing at point `k`. -/
def clampLoop (coord : Nat) (maxDepth : FVal) (src : List F32) :
    Nat → Nat → List F32 → List F32
  | 0, _, dst => dst
  | n + 1, k, dst => clampLoop coord maxDepth src n (k + 1) (clampPoint coord maxDepth src dst k)

/-- `StereoNodeBase::copyPointCloudClamped<coord>(src, dst, size)`: the array
`dst` after the call (`endPtr = src + 4*size`). -/
def copyPointCloudClamped (coord : Nat) (maxDepth : FVal) (src dst : List F32)
    (size : Nat) : List F32 :=
  clampLoop coord maxDepth src size 0 dst

/-- The cell `p` of the destination as one pass leaves it, point by point: the
fourth cell of a point is the one the destination held, the other three are NaN
or those of the source. -/
def clampedCell (coord : Nat) (maxDepth : FVal) (src dst : List F32) (p : Nat) : F32 :=
  if p % 4 = 3 then rd dst p
  else if FVal.gt (rd src (4 * (p / 4) + coord)).toVal maxDepth then quietNaN
  else rd src p

/-! ## Float division -/

/-- The integer nearest to `n / d`, a tie going to the even neighbour. -/
def roundDiv (n d : Nat) : Nat :=
  let q := n / d
  let r := n % d
  if 2 * r < d then q else if d < 2 * r then q + 1 else q + q % 2

/-- The `float` quotient `static_cast<float>(a) / static_cast<float>(b)` of two
integers that are exact as floats (`a, b ≤ 2^24`, `b > 0`): the binary32 number
nearest to `a / b`, ties to even (IEEE 754 division in the default rounding
mode).  `sh - 200` is the exponent of the last place of the result; `sh = 51` is
the subnormal range. -/
def F32.divNat (a b : Nat) : F32 :=
  let L := Nat.log2 (a * 2 ^ 200 / b)
  let sh := max (L - 23) 51
  let bits := (sh - 51) * 2 ^ 23 + roundDiv (a * 2 ^ 200) (b * 2 ^ sh)
  ⟨min bits (255 * 2 ^ 23)⟩

/-! ## Frames (`visiontransfer::ImageSet`) and messages -/

/-- The values of `ImageSet::ImageFormat`; `unhandled` stands for any value
outside the three enumerators. -/
inductive ImageFormat where
  | FORMAT_8_BIT_MONO
  | FORMAT_8_BIT_RGB
  | FORMAT_12_BIT_MONO
  | unhandled (tag : Nat)
deriving DecidableEq, Repr

/-- One pixel plane of an image set: `getPixelFormat`, `getRowStride` (bytes) and
the bytes behind `getPixelData`. -/
structure Image where
  format : ImageFormat
  rowStride : Nat
  pixels : List Nat
deriving DecidableEq, Repr

/-- A received image set.  `left`, `right`, `disparity` are the planes for which
`hasImageType` holds. -/
structure ImageSet where
  width : Nat
  height : Nat
  sequenceNumber : Nat
  qMatrix : List F32
  left : Option Image
  right : Option Image
  disparity : Option Image
  minDisparity : Int
  maxDisparity : Int
deriving DecidableEq, Repr

/-- The member `pointCloudColorMode`. -/
inductive PointCloudColorMode where
  | RGB_SEPARATE
  | RGB_COMBINED
  | INTENSITY
  | NONE
deriving DecidableEq, Repr

/-- A `sensor_msgs::PointField`. -/
structure PointField where
  name : String
  offset : Nat
  datatype : Nat
  count : Nat
deriving DecidableEq, Repr

/-- The `sensor_msgs::PointCloud2` behind `pointCloudMsg`.  `data` is the payload
`std::vector<uint8_t>`, four bytes to a cell (little endian, as the message
declares with `is_bigendian = false`); the code only ever sizes it to a multiple
of 16 bytes. -/
structure PointCloud2 where
  stamp : Int
  frame_id : String
  seq : Nat
  height : Nat
  width : Nat
  fields : List PointField
  is_bigendian : Bool
  point_step : Nat
  row_step : Nat
  data : List F32
  is_dense : Bool
deriving DecidableEq, Repr

/-- The value of `pointCloudMsg->data.size()`, in bytes. -/
def PointCloud2.dataSize (msg : PointCloud2) : Nat := 4 * msg.data.length

/-- The calibration file behind `calibStorage`: what `calibStorage[key] >> vec`
leaves in a vector of `int`, of `double` and of `float`.  A storage that is not
open yields empty vectors. -/
structure CalibStorage where
  ints : String → List Int
  doubles : String → List FVal
  floats : String → List F32

/-- The configuration members `init` reads from the parameter server. -/
structure Config where
  pointCloudColorMode : PointCloudColorMode
  colorCodeDispMap : String
  colorCodeLegend : Bool
  internalFrame : String
  rosCoordinateSystem : Bool
  calibFile : String
  maxDepth : FVal
  useQFromCalibFile : Bool

/-- How a call ends: it returns, it leaves by a C++ exception, or it runs into
undefined behaviour (an access past the end of an array). -/
inductive Outcome (α : Type) where
  | ok (val : α)
  | raised (what : String)
  | undefined
deriving DecidableEq, Repr

/-- Sequencing of calls: the first abnormal end is the end of the whole. -/
def Outcome.bind {α β : Type} (x : Outcome α) (f : α → Outcome β) : Outcome β :=
  match x with
  | .ok a => f a
  | .raised w => .raised w
  | .undefined => .undefined

/-! ## Colour and intensity packing (`copyPointCloudIntensity`, lines 431-518) -/

/-- The byte `p[i]` behind an `unsigned char*`, `i` counted from the start of
the pixel data. -/
def rdByte (pixels : List Nat) (i : Int) : Nat :=
  if i < 0 then 0 else (pixels.getD i.toNat 0) % 256

/-- The sample `p[i]` behind an `unsigned short*` on the pixel data, `i` counted
in samples: the bytes `2i` and `2i+1`, low byte first. -/
def rdShort (pixels : List Nat) (i : Int) : Nat :=
  rdByte pixels (2 * i) + 256 * rdByte pixels (2 * i + 1)

/-- The expression `(r << 16) | (g << 8) | b` stored through an `unsigned int*`. -/
def packRGB (r g b : Nat) : F32 := ⟨((r <<< 16) ||| (g <<< 8) ||| b) % 2 ^ 32⟩

/-- The store `*cloudPtr = v` through the `unsigned char*`: the byte at the
lowest address of the cell takes `v`, the other three keep their value. -/
def setLowByte (cell : F32) (v : Nat) : F32 := ⟨cell.bits / 256 * 256 + v % 256⟩

/-- The branch on `colorMode` in the 8-bit mono loop, for the pixel `*imagePtr = v`;
`cell` is the fourth cell of the point before the store. -/
def packMono8 (colorMode : PointCloudColorMode) (v : Nat) (cell : F32) : F32 :=
  match colorMode with
  | .RGB_SEPARATE => F32.divNat v 255
  | .RGB_COMBINED => packRGB v v v
  | _ => setLowByte cell v

/-- The branch on `colorMode` in the 12-bit mono loop, for the sample
`*imagePtr = s`; `const unsigned char intensity = *imagePtr/16` narrows to a byte. -/
def packMono12 (colorMode : PointCloudColorMode) (s : Nat) (cell : F32) : F32 :=
  match colorMode with
  | .RGB_SEPARATE => F32.divNat s 4095
  | .RGB_COMBINED => packRGB (s / 16 % 256) (s / 16 % 256) (s / 16 % 256)
  | _ => setLowByte cell (s / 16)

/-- The branch on `colorMode` in the 8-bit RGB loop, for the bytes `imagePtr[0]`,
`imagePtr[1]`, `imagePtr[2]`. -/
def packRGB8 (colorMode : PointCloudColorMode) (p0 p1 p2 : Nat) (cell : F32) : F32 :=
  match colorMode with
  | .RGB_SEPARATE => F32.divNat p2 255
  | .RGB_COMBINED => packRGB p0 p1 p2
  | _ => setLowByte cell ((p0 + p1 * 2 + p2) / 4)

/-- The loop of the 8-bit mono branch with `n` points left: `cloudPtr` stands on
the fourth cell of point `k`, `imagePtr` and `rowEndPtr` are offsets into the
pixel data. -/
def mono8Loop (colorMode : PointCloudColorMode) (pixels : List Nat) (width : Nat)
    (rowIncrement : Int) : Nat → Nat → Int → Int → List F32 → List F32
  | 0, _, _, _, cloud => cloud
  | n + 1, k, imagePtr, rowEndPtr, cloud =>
    let cloud := cloud.set (4 * k + 3)
      (packMono8 colorMode (rdByte pixels imagePtr) (rd cloud (4 * k + 3)))
    let imagePtr := imagePtr + 1
    if imagePtr = rowEndPtr then
      mono8Loop colorMode pixels width rowIncrement n (k + 1)
        (imagePtr + rowIncrement) (imagePtr + rowIncrement + width) cloud
    else
      mono8Loop colorMode pixels width rowIncrement n (k + 1) imagePtr rowEndPtr cloud

/-- The loop of the 12-bit mono branch; `imagePtr` and `rowEndPtr` are
`unsigned short*`, so their offsets, and `rowIncrement` added to them, count
samples. -/
def mono12Loop (colorMode : PointCloudColorMode) (pixels : List Nat) (width : Nat)
    (rowIncrement : Int) : Nat → Nat → Int → Int → List F32 → List F32
  | 0, _, _, _, cloud => cloud
  | n + 1, k, imagePtr, rowEndPtr, cloud =>
    let cloud := cloud.set (4 * k + 3)
      (packMono12 colorMode (rdShort pixels imagePtr) (rd cloud (4 * k + 3)))
    let imagePtr := imagePtr + 1
    if imagePtr = rowEndPtr then
      mono12Loop colorMode pixels width rowIncrement n (k + 1)
        (imagePtr + rowIncrement) (imagePtr + rowIncrement + width) cloud
    else
      mono12Loop colorMode pixels width rowIncrement n (k + 1) imagePtr rowEndPtr cloud

/-- The loop of the 8-bit RGB branch: `imagePtr += 3` per point, compared with
`rowEndPtr = imagePtr + getWidth()`. -/
def rgb8Loop (colorMode : PointCloudColorMode) (pixels : List Nat) (width : Nat)
    (rowIncrement : Int) : Nat → Nat → Int → Int → List F32 → List F32
  | 0, _, _, _, cloud => cloud
  | n + 1, k, imagePtr, rowEndPtr, cloud =>
    let cloud := cloud.set (4 * k + 3)
      (packRGB8 colorMode (rdByte pixels imagePtr) (rdByte pixels (imagePtr + 1))
        (rdByte pixels (imagePtr + 2)) (rd cloud (4 * k + 3)))
    let imagePtr := imagePtr + 3
    if imagePtr = rowEndPtr then
      rgb8Loop colorMode pixels width rowIncrement n (k + 1)
        (imagePtr + rowIncrement) (imagePtr + rowIncrement + width) cloud
    else
      rgb8Loop colorMode pixels width rowIncrement n (k + 1) imagePtr rowEndPtr cloud

/-- `StereoNodeBase::copyPointCloudIntensity<colorMode>(imageSet)` on the payload
`cloud` of `pointCloudMsg`, for the left image `left`: the payload afterwards, or
the exception of the last branch.  The loops run while
`cloudPtr < cloudStart + width*height*16`, that is over `width*height` points. -/
def copyPointCloudIntensity (colorMode : PointCloudColorMode) (width height : Nat)
    (left : Image) (cloud : List F32) : Outcome (List F32) :=
  match left.format with
  | .FORMAT_8_BIT_MONO =>
    .ok (mono8Loop colorMode left.pixels width ((left.rowStride : Int) - width)
      (width * height) 0 0 width cloud)
  | .FORMAT_12_BIT_MONO =>
    .ok (mono12Loop colorMode left.pixels width ((left.rowStride : Int) - 2 * width)
      (width * height) 0 0 width cloud)
  | .FORMAT_8_BIT_RGB =>
    .ok (rgb8Loop colorMode left.pixels width ((left.rowStride : Int) - width)
      (width * height) 0 0 width cloud)
  | .unhandled _ => .raised "Invalid pixel format!"

/-! ## Point cloud assembly (`initPointCloud`, `publishPointCloudMsg`) -/

/-- The constants `sensor_msgs::PointField::UINT8`, `UINT32` and `FLOAT32`. -/
def PointField.UINT8 : Nat := 2

def PointField.UINT32 : Nat := 6

def PointField.FLOAT32 : Nat := 7

/-- The message `initPointCloud` builds: a default constructed `PointCloud2`
with the channel information pushed for the colour mode (lines 543-603). -/
def initPointCloud (pointCloudColorMode : PointCloudColorMode) : PointCloud2 :=
  let xyz : List PointField :=
    [⟨"x", 0, PointField.FLOAT32, 1⟩, ⟨"y", 4, PointField.FLOAT32, 1⟩,
     ⟨"z", 8, PointField.FLOAT32, 1⟩]
  let colour : List PointField :=
    match pointCloudColorMode with
    | .INTENSITY => [⟨"intensity", 12, PointField.UINT8, 1⟩]
    | .RGB_SEPARATE =>
      [⟨"r", 12, PointField.FLOAT32, 1⟩, ⟨"g", 12, PointField.FLOAT32, 1⟩,
       ⟨"b", 12, PointField.FLOAT32, 1⟩]
    | .RGB_COMBINED => [⟨"rgb", 12, PointField.UINT32, 1⟩]
    | .NONE => []
  { stamp := 0, frame_id := "", seq := 0, height := 0, width := 0,
    fields := xyz ++ colour, is_bigendian := false, point_step := 0, row_step := 0,
    data := [], is_dense := false }

/-- The call `data.resize(n)` for `n` cells of four bytes: the first cells are
kept, new ones are zero. -/
def resizeData (data : List F32) (n : Nat) : List F32 :=
  data.take n ++ List.replicate (n - data.length) ⟨0⟩

/-- The call `memcpy(&data[0], pointMap, n*sizeof(float))` for `n` cells. -/
def memcpyCells (data pointMap : List F32) (n : Nat) : List F32 :=
  (List.range n).map (rd pointMap) ++ data.drop n

/-- What one call of `publishPointCloudMsg` did: the message object afterwards,
whether `cloudPublisher->publish(pointCloudMsg)` was reached (the payload
published is then `msg`), whether the branch that reallocates the buffer and
sets the basic data (lines 383-394) ran, the exception the call left by, if
any, and whether the call ran into undefined behaviour. -/
structure CloudResult where
  msg : PointCloud2
  published : Bool
  reallocated : Bool
  raised : Option String
  undefined : Bool
deriving DecidableEq, Repr

/-- The switch on `pointCloudColorMode` of lines 411-426. -/
def copyIntensityByMode (colorMode : PointCloudColorMode) (imageSet : ImageSet)
    (cloud : List F32) : Outcome (List F32) :=
  match imageSet.left with
  | none => .ok cloud
  | some left =>
    match colorMode with
    | .INTENSITY =>
      copyPointCloudIntensity .INTENSITY imageSet.width imageSet.height left cloud
    | .RGB_COMBINED =>
      copyPointCloudIntensity .RGB_COMBINED imageSet.width imageSet.height left cloud
    | .RGB_SEPARATE =>
      copyPointCloudIntensity .RGB_SEPARATE imageSet.width imageSet.height left cloud
    | .NONE => .ok cloud

/-- The image set as `publishPointCloudMsg` hands it to the reconstruction
(lines 354-366): with the Q matrix of the calibration file if desired, and
transformed by `qMatrixToRosCoords` if desired.  The local array `qRos` starts
with arbitrary content, all of which `qMatrixToRosCoords` overwrites. -/
def frameForReconstruction (cfg : Config) (calib : CalibStorage) (imageSet : ImageSet) :
    ImageSet :=
  -- Set static q matrix if desired
  let imageSet : ImageSet :=
    if cfg.useQFromCalibFile then { imageSet with qMatrix := calib.floats "Q" }
    else imageSet
  -- Transform Q-matrix if desired
  if cfg.rosCoordinateSystem then
    { imageSet with
      qMatrix := qMatrixToRosCoords imageSet.qMatrix (List.replicate 16 default) }
  else imageSet

/-- Lines 383-394: when the byte size of the payload is not
`width*height*4*sizeof(float)`, the buffer is resized and the basic data are
set.  The flag tells whether that branch ran.  `row_step` is an unsigned 32-bit
product. -/
def reallocateIfNeeded (msg : PointCloud2) (imageSet : ImageSet) : PointCloud2 × Bool :=
  if msg.dataSize ≠ imageSet.width * imageSet.height * 4 * 4 then
    ({ msg with
        data := resizeData msg.data (imageSet.width * imageSet.height * 4)
        width := imageSet.width
        height := imageSet.height
        is_bigendian := false
        point_step := 4 * 4
        row_step := imageSet.width * (4 * 4) % 2 ^ 32
        is_dense := false }, true)
  else (msg, false)

/-- Lines 396-409: the plain copy when `maxDepth < 0`, else the clamped copy on
axis 0 or 2. -/
def copyPoints (cfg : Config) (data pointMap : List F32) (imageSet : ImageSet) : List F32 :=
  if FVal.lt cfg.maxDepth (FVal.finite 0) then
    memcpyCells data pointMap (imageSet.width * imageSet.height * 4)
  else if cfg.rosCoordinateSystem then
    copyPointCloudClamped 0 cfg.maxDepth pointMap data (imageSet.width * imageSet.height)
  else
    copyPointCloudClamped 2 cfg.maxDepth pointMap data (imageSet.width * imageSet.height)

/-- Lines 377-428: the assembly of the message from the point map, up to its
publication. -/
def assemblePointCloud (cfg : Config) (msg : PointCloud2) (imageSet : ImageSet)
    (stamp : Int) (pointMap : List F32) : CloudResult :=
  -- Create message object and set header
  let msg : PointCloud2 :=
    { msg with stamp := stamp, frame_id := cfg.internalFrame,
               seq := imageSet.sequenceNumber }
  -- Copy 3D points
  let (msg, reallocated) := reallocateIfNeeded msg imageSet
  let data := copyPoints cfg msg.data pointMap imageSet
  match copyIntensityByMode cfg.pointCloudColorMode imageSet data with
  | .ok data => ⟨{ msg with data := data }, true, reallocated, none, false⟩
  | .raised what => ⟨{ msg with data := data }, false, reallocated, some what, false⟩
  | .undefined => ⟨{ msg with data := data }, false, reallocated, none, true⟩

/-- Whether the Q matrix handed on has its sixteen floats: with
`useQFromCalibFile` it is the vector read from the key `Q` of the calibration
file, and `&q[0]` is read as a matrix of sixteen floats whatever its size. -/
def staticQUsable (cfg : Config) (calib : CalibStorage) : Bool :=
  !cfg.useQFromCalibFile || decide (16 ≤ (calib.floats "Q").length)

/-- `StereoNodeBase::publishPointCloudMsg(imageSet, stamp)` on the message object
`msg`.  `recon` is `recon3d->createPointMap(imageSet, 0)`, the external 3D
reconstruction: the point map of `4*width*height` floats, or `none` when it
throws. -/
def publishPointCloudMsg (cfg : Config) (calib : CalibStorage)
    (recon : ImageSet → Option (List F32)) (msg : PointCloud2) (imageSet : ImageSet)
    (stamp : Int) : CloudResult :=
  match imageSet.disparity with
  | none => ⟨msg, false, false, none, false⟩
  | some disparity =>
    if disparity.format ≠ ImageFormat.FORMAT_12_BIT_MONO then
      ⟨msg, false, false, none, false⟩
    else if staticQUsable cfg calib = false then ⟨msg, false, false, none, true⟩
    else
      -- Get 3D points
      match recon (frameForReconstruction cfg calib imageSet) with
      | none => ⟨msg, false, false, none, false⟩
      | some pointMap =>
        assemblePointCloud cfg msg (frameForReconstruction cfg calib imageSet) stamp pointMap

/-- A resolution: the `getWidth()` and `getHeight()` of a frame. -/
structure Resolution where
  width : Nat
  height : Nat
deriving DecidableEq, Repr

/-- Whether `copyPointCloudIntensity` accepts the left image of a frame: there is
no left image, or the colour mode is `NONE`, or its format is one of the three
enumerators. -/
def leftImageHandled (colorMode : PointCloudColorMode) (imageSet : ImageSet) : Bool :=
  match imageSet.left with
  | none => true
  | some left =>
    match colorMode with
    | .NONE => true
    | _ =>
      match left.format with
      | .unhandled _ => false
      | _ => true

/-- A frame that `publishPointCloudMsg` assembles: a disparity map in 12-bit
mono is present, the Q matrix has its sixteen floats, the reconstruction
succeeds, and the left image is accepted. -/
def assembles (cfg : Config) (calib : CalibStorage) (recon : ImageSet → Option (List F32))
    (imageSet : ImageSet) : Bool :=
  match imageSet.disparity with
  | none => false
  | some disparity =>
    decide (disparity.format = ImageFormat.FORMAT_12_BIT_MONO) &&
      staticQUsable cfg calib &&
      (recon (frameForReconstruction cfg calib imageSet)).isSome &&
      leftImageHandled cfg.pointCloudColorMode imageSet

/-- The calls of `publishPointCloudMsg` for a sequence of frames and stamps, each
on the message object the previous one left. -/
def publishPointClouds (cfg : Config) (calib : CalibStorage)
    (recon : ImageSet → Option (List F32)) :
    PointCloud2 → List (ImageSet × Int) → List CloudResult
  | _, [] => []
  | msg, (imageSet, stamp) :: rest =>
    publishPointCloudMsg cfg calib recon msg imageSet stamp ::
      publishPointClouds cfg calib recon
        (publishPointCloudMsg cfg calib recon msg imageSet stamp).msg rest

/-- How many of the calls ran the branch of lines 383-394. -/
def reallocations (results : List CloudResult) : Nat :=
  results.countP (fun r => r.reallocated)

/-- A 12-bit mono plane of `width*height` zero samples without row padding. -/
def blankPlane12 (width height : Nat) : Image :=
  ⟨ImageFormat.FORMAT_12_BIT_MONO, 2 * width, List.replicate (2 * width * height) 0⟩

/-- A frame of the given resolution with a disparity map only and a zero Q
matrix. -/
def disparityFrame (width height : Nat) : ImageSet :=
  { width := width, height := height, sequenceNumber := 0,
    qMatrix := List.replicate 16 ⟨0⟩, left := none, right := none,
    disparity := some (blankPlane12 width height), minDisparity := 0, maxDisparity := 255 }

/-- A configuration without depth clamping, colour or calibration. -/
def plainConfig : Config :=
  { pointCloudColorMode := .NONE, colorCodeDispMap := "", colorCodeLegend := false,
    internalFrame := "nerian_stereo", rosCoordinateSystem := true, calibFile := "",
    maxDepth := FVal.finite (-1), useQFromCalibFile := false }

/-- A calibration storage that is not open. -/
def closedStorage : CalibStorage :=
  { ints := fun _ => [], doubles := fun _ => [], floats := fun _ => [] }

/-- A reconstruction that places every point at the origin. -/
def flatRecon (imageSet : ImageSet) : Option (List F32) :=
  some (List.replicate (4 * imageSet.width * imageSet.height) ⟨0⟩)

/-- A message object whose payload holds `cells` cells of value `fill`, with the
basic data of the given resolution. -/
def payloadOf (width height cells : Nat) (fill : F32) : PointCloud2 :=
  { initPointCloud .NONE with
    width := width, height := height, point_step := 16, row_step := width * 16,
    data := List.replicate cells fill }

/-! ## Image publication (`publishImageMsg`, lines 260-332) -/

/-- `StereoNodeBase::loadCameraCalibration()` (lines 241-258): the storage the
node holds afterwards and whether a warning was logged.  `openFile` is
`calibStorage.open(calibFile, READ)`, `none` when it fails or throws.  The member
`calibFile` is left as it was in every case. -/
def loadCameraCalibration (calibFile : String) (openFile : String → Option CalibStorage) :
    CalibStorage × Bool :=
  if calibFile = "" then (closedStorage, true)
  else
    match openFile calibFile with
    | some storage => (storage, false)
    | none => (closedStorage, true)

/-- A `sensor_msgs::RegionOfInterest`. -/
structure RegionOfInterest where
  x_offset : Nat
  y_offset : Nat
  height : Nat
  width : Nat
  do_rectify : Bool
deriving DecidableEq

/-- A `sensor_msgs::CameraInfo`. -/
structure CameraInfo where
  stamp : Int
  frame_id : String
  seq : Nat
  height : Nat
  width : Nat
  distortion_model : String
  D : List FVal
  K : List FVal
  R : List FVal
  P : List FVal
  binning_x : Nat
  binning_y : Nat
  roi : RegionOfInterest
deriving DecidableEq

/-- The message `nerian_stereo::StereoCameraInfo`.  Its definition is not among
the sources; the code determines the fields below, and the lengths of the fixed
arrays are those of the freshly constructed message, a parameter of
`publishCameraInfo`. -/
structure StereoCameraInfo where
  stamp : Int
  frame_id : String
  seq : Nat
  left_info : CameraInfo
  right_info : CameraInfo
  Q : List FVal
  T_left_right : List FVal
  R_left_right : List FVal
deriving DecidableEq

/-- The call `std::copy(src.begin(), src.end(), dest.begin())` into a fixed size
array: the first `src.size()` elements of `dest` are overwritten; a longer `src`
writes past the end of `dest`. -/
def stdCopy (src dest : List FVal) : Outcome (List FVal) :=
  if src.length ≤ dest.length then .ok (src ++ dest.drop src.length) else .undefined

/-- `StereoNodeBase::readCalibrationArray(key, dest)` (lines 679-688): the array
`dest` afterwards.  The statement under `if(doubleVec.size() != dest.size())` is
`std::runtime_error("Calibration file format error!");`, an expression that builds
an exception object and drops it; nothing is thrown, and the copy follows in
every case. -/
def readCalibrationArray (calib : CalibStorage) (key : String) (dest : List FVal) :
    Outcome (List FVal) :=
  let doubleVec := calib.doubles key
  stdCopy doubleVec dest

/-- The assignments to `left_info` or `right_info` in `publishCameraInfo`
(lines 621-635 and 637-651), `sizeVec` having at least two elements. -/
def fillCameraInfo (calib : CalibStorage) (msg : StereoCameraInfo) (info : CameraInfo)
    (size0 size1 : Int) (dKey mKey rKey pKey : String) : Outcome CameraInfo :=
  let info : CameraInfo :=
    { info with
      stamp := msg.stamp, frame_id := msg.frame_id, seq := msg.seq
      width := (size0 % 2 ^ 32).toNat
      height := (size1 % 2 ^ 32).toNat
      distortion_model := "plumb_bob"
      D := calib.doubles dKey }
  (readCalibrationArray calib mKey info.K).bind fun K =>
  (readCalibrationArray calib rKey info.R).bind fun R =>
  (readCalibrationArray calib pKey info.P).bind fun P =>
  .ok { info with
        K := K, R := R, P := P, binning_x := 1, binning_y := 1
        roi := ⟨0, 0, 0, 0, false⟩ }

/-- The block under `if(camInfoMsg == NULL)` of `publishCameraInfo`
(lines 607-657): the message the cache holds afterwards.  `fresh` is the message
`new nerian_stereo::StereoCameraInfo` constructs.  As in `readCalibrationArray`,
the `std::runtime_error(...)` under `if(sizeVec.size() != 2)` is not thrown;
`sizeVec[0]` and `sizeVec[1]` are then read whatever the size. -/
def initCameraInfo (cfg : Config) (calib : CalibStorage) (fresh : StereoCameraInfo)
    (imageSet : ImageSet) : Outcome StereoCameraInfo :=
  let msg : StereoCameraInfo :=
    { fresh with frame_id := cfg.internalFrame, seq := imageSet.sequenceNumber }
  if cfg.calibFile ≠ "" then
    match calib.ints "size" with
    | size0 :: size1 :: _ =>
      (fillCameraInfo calib msg msg.left_info size0 size1 "D1" "M1" "R1" "P1").bind fun left =>
      (fillCameraInfo calib msg msg.right_info size0 size1 "D2" "M2" "R2" "P2").bind fun right =>
      (readCalibrationArray calib "Q" msg.Q).bind fun Q =>
      (readCalibrationArray calib "T" msg.T_left_right).bind fun T =>
      (readCalibrationArray calib "R" msg.R_left_right).bind fun R =>
      .ok { msg with
            left_info := left, right_info := right, Q := Q, T_left_right := T
            R_left_right := R }
    | _ => .undefined
  else .ok msg

/-- The comparison `w != 0.0` of a float: it fails for the two zeros only. -/
def F32.neZero (w : F32) : Bool := decide (w.bits % 2 ^ 31 ≠ 0)

/-- The loop `for(int i=0; i<16; i++) Q[i] = static_cast<double>(qMatrix[i])`. -/
def copyQMatrix (Q : List FVal) (qMatrix : List F32) : List FVal :=
  (List.range 16).foldl (fun Q i => Q.set i (rd qMatrix i).toVal) Q

/-- The members `camInfoMsg` and `lastCamInfoPublish`. -/
structure CamInfoState where
  camInfoMsg : Option StereoCameraInfo
  lastCamInfoPublish : Int
deriving DecidableEq

/-- One second, in the nanoseconds of `ros::Time`. -/
def oneSecond : Int := 1000000000

/-- Lines 659-676 of `publishCameraInfo`, on the message `msg` of the cache: the
state afterwards and the message handed to `cameraInfoPublisher->publish`, if
any.  `dt > 1.0` for `dt = (stamp - lastCamInfoPublish).toSec()` is written on the
nanoseconds. -/
def publishIfDue (msg : StereoCameraInfo) (lastCamInfoPublish stamp : Int)
    (imageSet : ImageSet) : CamInfoState × Option StereoCameraInfo :=
  if stamp - lastCamInfoPublish > oneSecond then
    -- Rather use the Q-matrix that we received over the network if it is valid
    let msg : StereoCameraInfo :=
      if (rd imageSet.qMatrix 0).neZero then
        { msg with Q := copyQMatrix msg.Q imageSet.qMatrix }
      else msg
    -- Publish once per second
    let msg : StereoCameraInfo :=
      { msg with
        stamp := stamp
        left_info := { msg.left_info with stamp := stamp }
        right_info := { msg.right_info with stamp := stamp } }
    (⟨some msg, stamp⟩, some msg)
  else (⟨some msg, lastCamInfoPublish⟩, none)

/-- `StereoNodeBase::publishCameraInfo(stamp, imageSet)` (lines 606-677). -/
def publishCameraInfo (cfg : Config) (calib : CalibStorage) (fresh : StereoCameraInfo)
    (st : CamInfoState) (stamp : Int) (imageSet : ImageSet) :
    Outcome (CamInfoState × Option StereoCameraInfo) :=
  match st.camInfoMsg with
  | none =>
    (initCameraInfo cfg calib fresh imageSet).bind fun msg =>
      .ok (publishIfDue msg st.lastCamInfoPublish stamp imageSet)
  | some msg => .ok (publishIfDue msg st.lastCamInfoPublish stamp imageSet)

/-- The calls of `publishCameraInfo` for a sequence of stamps and frames: the
state at the end and the messages published, in order. -/
def publishCameraInfos (cfg : Config) (calib : CalibStorage) (fresh : StereoCameraInfo) :
    CamInfoState → List (Int × ImageSet) → Outcome (CamInfoState × List StereoCameraInfo)
  | st, [] => .ok (st, [])
  | st, (stamp, imageSet) :: rest =>
    (publishCameraInfo cfg calib fresh st stamp imageSet).bind fun step =>
      (publishCameraInfos cfg calib fresh step.1 rest).bind fun tail =>
        .ok (tail.1, step.2.toList ++ tail.2)

/-- A default constructed `sensor_msgs::CameraInfo`. -/
def blankCameraInfo : CameraInfo :=
  { stamp := 0, frame_id := "", seq := 0, height := 0, width := 0, distortion_model := "",
    D := [], K := List.replicate 9 (FVal.finite 0), R := List.replicate 9 (FVal.finite 0),
    P := List.replicate 12 (FVal.finite 0), binning_x := 0, binning_y := 0,
    roi := ⟨0, 0, 0, 0, false⟩ }

/-- A default constructed `nerian_stereo::StereoCameraInfo`, with `float64[16] Q`,
`float64[3] T_left_right` and `float64[9] R_left_right`. -/
def blankStereoCameraInfo : StereoCameraInfo :=
  { stamp := 0, frame_id := "", seq := 0, left_info := blankCameraInfo,
    right_info := blankCameraInfo, Q := List.replicate 16 (FVal.finite 0),
    T_left_right := List.replicate 3 (FVal.finite 0),
    R_left_right := List.replicate 9 (FVal.finite 0) }

/-- The state of a node that has not published camera information yet. -/
def startState : CamInfoState := ⟨none, 0⟩

/-- A calibration file whose matrix `M1` has three entries instead of nine. -/
def shortM1Storage : CalibStorage :=
  { ints := fun _ => []
    doubles := fun key =>
      if key = "M1" then [FVal.finite 1, FVal.finite 2, FVal.finite 3] else []
    floats := fun _ => [] }

/-- The fields of the camera information that only the calibration file fills. -/
def calibrationFields (msg : StereoCameraInfo) :
    (Nat × Nat × List FVal × List FVal × List FVal × List FVal) ×
    (Nat × Nat × List FVal × List FVal × List FVal × List FVal) ×
    List FVal × List FVal :=
  ((msg.left_info.width, msg.left_info.height, msg.left_info.D, msg.left_info.K,
      msg.left_info.R, msg.left_info.P),
   (msg.right_info.width, msg.right_info.height, msg.right_info.D, msg.right_info.K,
      msg.right_info.R, msg.right_info.P),
   msg.T_left_right, msg.R_left_right)

/-- The number of messages a sequence of calls published, when it ran to its
end. -/
def publishedCount : Outcome (CamInfoState × List StereoCameraInfo) → Option Nat
  | .ok result => some result.2.length
  | _ => none

/-- Consecutive publications are more than one second apart, the first one more
than one second after `last`. -/
def spacedFrom (last : Int) (stamps : List Int) : Prop :=
  List.Chain (fun a b => b - a > oneSecond) last stamps

/-- A matrix with the entries 1 to 16 as bit patterns. -/
def sampleQ : List F32 := (List.range 16).map fun i => ⟨i + 1⟩

/-- Two points: (6.0, 1.0, 2.0) and (1.0, 1.0, 1.0), the padding cells zero. -/
def twoPoints : List F32 :=
  [⟨0x40C00000⟩, ⟨0x3F800000⟩, ⟨0x40000000⟩, ⟨0⟩,
   ⟨0x3F800000⟩, ⟨0x3F800000⟩, ⟨0x3F800000⟩, ⟨0⟩]

/-- A destination of two points whose colour cells hold 200 and 7. -/
def twoSlots : List F32 := [⟨1⟩, ⟨2⟩, ⟨3⟩, ⟨200⟩, ⟨4⟩, ⟨5⟩, ⟨6⟩, ⟨7⟩]

/-! ## Orientation transform (`processDataChannels`, lines 690-738) -/

/-- Unary minus on a `double`. -/
def FVal.neg : FVal → FVal
  | .nan => .nan
  | .negInf => .posInf
  | .finite q => .finite (-q)
  | .posInf => .negInf

/-- A `geometry_msgs::Vector3`. -/
structure Vector3 where
  x : FVal
  y : FVal
  z : FVal
deriving DecidableEq

/-- A `geometry_msgs::Quaternion`, also the four components `x()`, `y()`, `z()`,
`w()` of a `TimestampedQuaternion`. -/
structure Quaternion where
  x : FVal
  y : FVal
  z : FVal
  w : FVal
deriving DecidableEq

/-- The `geometry_msgs::TransformStamped` behind `currentTransform`. -/
structure TransformStamped where
  stamp : Int
  frame_id : String
  child_frame_id : String
  translation : Vector3
  rotation : Quaternion
deriving DecidableEq

/-- Ten milliseconds, in the nanoseconds of `ros::Time`. -/
def tenMilliseconds : Int := 10000000

/-- `StereoNodeBase::processDataChannels()`: the member `currentTransform`
afterwards and the transform handed to `transformBroadcaster->sendTransform`, if
any.  `now` is `ros::Time::now()`; `imu` is the sample
`dataChannelService->imuGetRotationQuaternion()` when `imuAvailable()` holds.
`(now - currentTransform.header.stamp).toSec() < 0.01` is written on the
nanoseconds. -/
def processDataChannels (rosCoordinateSystem : Bool) (now : Int) (imu : Option Quaternion)
    (currentTransform : TransformStamped) : TransformStamped × Option TransformStamped :=
  if now - currentTransform.stamp < tenMilliseconds then
    -- Limit to 100 Hz transform update frequency
    (currentTransform, none)
  else
    match imu with
    | some tsq =>
      -- Obtain and publish the most recent orientation
      let currentTransform : TransformStamped := { currentTransform with stamp := now }
      let currentTransform : TransformStamped :=
        if rosCoordinateSystem then
          { currentTransform with
            rotation := { currentTransform.rotation with
                          x := tsq.x, y := tsq.z.neg, z := tsq.y } }
        else
          { currentTransform with
            rotation := { currentTransform.rotation with
                          x := tsq.x, y := tsq.y, z := tsq.z } }
      let currentTransform : TransformStamped :=
        { currentTransform with rotation := { currentTransform.rotation with w := tsq.w } }
      (currentTransform, some currentTransform)
    | none =>
      -- We must periodically republish due to ROS interval constraints
      let currentTransform : TransformStamped := { currentTransform with stamp := now }
      (currentTransform, some currentTransform)

/-- The transform `init` sets up (lines 165-174), stamped with the time of the
call. -/
def initialTransform (frame internalFrame : String) (now : Int) : TransformStamped :=
  { stamp := now, frame_id := frame, child_frame_id := internalFrame,
    translation := ⟨FVal.finite 0, FVal.finite 0, FVal.finite 0⟩,
    rotation := ⟨FVal.finite 0, FVal.finite 0, FVal.finite 0, FVal.finite 1⟩ }

/-- An orientation sample with four different components. -/
def sampleQuaternion : Quaternion :=
  ⟨FVal.finite 1, FVal.finite 2, FVal.finite 3, FVal.finite 4⟩

/-! ## Dependence of the published payload on the prior payload -/

/-- A 12-bit mono image of width 1 and height 2 with a row stride of 4 bytes: the
samples 16 and 32, each followed by two padding bytes. -/
def paddedImage12 : Image :=
  ⟨ImageFormat.FORMAT_12_BIT_MONO, 4, [16, 0, 170, 170, 32, 0, 240, 15]⟩

/-- An 8-bit RGB image of width 2 and height 2 with a row stride of 8 bytes: the
pixels (1,2,3), (4,5,6) and (7,8,9), (10,11,12), each row followed by two
padding bytes of value 99. -/
def paddedImageRGB : Image :=
  ⟨ImageFormat.FORMAT_8_BIT_RGB, 8, [1, 2, 3, 4, 5, 6, 99, 99, 7, 8, 9, 10, 11, 12, 99, 99]⟩

theorem rd_set (a : List F32) (i j : Nat) (v : F32) :
    rd (a.set i v) j = if i = j ∧ j < a.length then v else rd a j := by
  unfold rd
  by_cases h : i = j
  · subst h
    by_cases hl : i < a.length
    · simp [List.getD_eq_getElem?_getD, List.getElem?_set, hl]
    · have hn : a[i]? = none := List.getElem?_eq_none (by omega)
      simp [List.getD_eq_getElem?_getD, List.getElem?_set, hl, hn]
  · simp [List.getD_eq_getElem?_getD, List.getElem?_set, h]

/-- C1: for a 16-element matrix `src`, `qMatrixToRosCoords(src, dst)` leaves in
`dst` row 0 = `src` row 2, row 1 = minus `src` row 0, row 2 = minus `src` row 1
and row 3 = `src` row 3, element by element. -/
theorem qMatrixToRosCoords_rows (src dst : List F32)
    (_hsrc : src.length = 16) (hdst : dst.length = 16) :
    (qMatrixToRosCoords src dst).length = 16 ∧
    ∀ j, j < 4 →
      rd (qMatrixToRosCoords src dst) j = rd src (8 + j) ∧
      rd (qMatrixToRosCoords src dst) (4 + j) = (rd src j).neg ∧
      rd (qMatrixToRosCoords src dst) (8 + j) = (rd src (4 + j)).neg ∧
      rd (qMatrixToRosCoords src dst) (12 + j) = rd src (12 + j) := by
  refine ⟨by simp [qMatrixToRosCoords, hdst], ?_⟩
  intro j hj
  have hcases : j = 0 ∨ j = 1 ∨ j = 2 ∨ j = 3 := by omega
  rcases hcases with h | h | h | h <;> subst h <;>
    simp [qMatrixToRosCoords, rd_set, hdst]

/-! ### Depth clamping -/

theorem length_clampPoint (coord : Nat) (m : FVal) (src dst : List F32) (k : Nat) :
    (clampPoint coord m src dst k).length = dst.length := by
  unfold clampPoint
  split <;> simp

theorem length_clampLoop (coord : Nat) (m : FVal) (src : List F32) (n : Nat) :
    ∀ (k : Nat) (dst : List F32), (clampLoop coord m src n k dst).length = dst.length := by
  induction n with
  | zero => intro k dst; rfl
  | succ n ih =>
    intro k dst
    rw [clampLoop, ih, length_clampPoint]

theorem rd_clampPoint (coord : Nat) (m : FVal) (src dst : List F32) (k p : Nat) :
    rd (clampPoint coord m src dst k) p =
      if 4 * k ≤ p ∧ p < 4 * k + 3 ∧ p < dst.length then clampedCell coord m src dst p
      else rd dst p := by
  unfold clampPoint clampedCell
  by_cases hin : 4 * k ≤ p ∧ p < 4 * k + 3 ∧ p < dst.length
  · obtain ⟨h1, h2, h3⟩ := hin
    have hp : p = 4 * k ∨ p = 4 * k + 1 ∨ p = 4 * k + 2 := by omega
    have hq : 4 * (p / 4) = 4 * k := by omega
    have hm : p % 4 ≠ 3 := by omega
    rw [hq]
    rcases hp with h | h | h <;> subst h <;> split <;> simp_all [rd_set]
  · rw [if_neg hin]
    split <;> simp only [rd_set, List.length_set] <;>
      (repeat rw [if_neg (by omega)])

theorem rd_clampLoop (coord : Nat) (m : FVal) (src : List F32) (n : Nat) :
    ∀ (k : Nat) (dst : List F32) (p : Nat),
      rd (clampLoop coord m src n k dst) p =
        if 4 * k ≤ p ∧ p < 4 * (k + n) ∧ p < dst.length then clampedCell coord m src dst p
        else rd dst p := by
  induction n with
  | zero =>
    intro k dst p
    rw [clampLoop, if_neg (by omega)]
  | succ n ih =>
    intro k dst p
    rw [clampLoop, ih, length_clampPoint, rd_clampPoint]
    have hcell : ∀ d : List F32, rd d p = rd dst p →
        clampedCell coord m src d p = clampedCell coord m src dst p := by
      intro d hd
      unfold clampedCell
      rw [hd]
    by_cases h1 : 4 * (k + 1) ≤ p ∧ p < 4 * (k + 1 + n) ∧ p < dst.length
    · rw [if_pos h1, if_pos (by omega)]
      apply hcell
      rw [rd_clampPoint, if_neg (by omega)]
    · rw [if_neg h1]
      by_cases h2 : 4 * k ≤ p ∧ p < 4 * k + 3 ∧ p < dst.length
      · rw [if_pos h2, if_pos (by omega)]
      · rw [if_neg h2]
        by_cases h3 : 4 * k ≤ p ∧ p < 4 * (k + (n + 1)) ∧ p < dst.length
        · rw [if_pos h3]
          have hp : p = 4 * k + 3 := by omega
          unfold clampedCell
          rw [if_pos (by omega)]
        · rw [if_neg h3]

theorem rd_copyPointCloudClamped (coord : Nat) (m : FVal) (src dst : List F32)
    (size p : Nat) :
    rd (copyPointCloudClamped coord m src dst size) p =
      if p < 4 * size ∧ p < dst.length then clampedCell coord m src dst p else rd dst p := by
  unfold copyPointCloudClamped
  rw [rd_clampLoop]
  by_cases h : p < 4 * size ∧ p < dst.length
  · rw [if_pos h, if_pos (by omega)]
  · rw [if_neg h, if_neg (by omega)]

theorem length_copyPointCloudClamped (coord : Nat) (m : FVal) (src dst : List F32)
    (size : Nat) : (copyPointCloudClamped coord m src dst size).length = dst.length :=
  length_clampLoop coord m src size 0 dst

theorem gt_quietNaN (m : FVal) : FVal.gt quietNaN.toVal m = false := by
  have h : quietNaN.toVal = FVal.nan := by decide
  rw [h]
  cases m <;> rfl

theorem rd_eq_getElem (a : List F32) (p : Nat) (h : p < a.length) : rd a p = a[p] := by
  simp [rd, List.getD_eq_getElem?_getD, h]

theorem ext_rd (a b : List F32) (hl : a.length = b.length)
    (h : ∀ p, p < a.length → rd a p = rd b p) : a = b := by
  apply List.ext_getElem hl
  intro p h1 h2
  rw [← rd_eq_getElem a p h1, ← rd_eq_getElem b p h2]
  exact h p h1

/-- C2: after `copyPointCloudClamped<coord>(src, dst, size)` with `coord` 0 or 2,
point `i < size` of `dst` has x, y, z all NaN when `src[4i+coord] > maxDepth` and
equal to those of point `i` of `src` otherwise; its fourth field is the one `dst`
held before; the number of cells of `dst` is unchanged. -/
theorem copyPointCloudClamped_spec (coord : Nat) (maxDepth : FVal) (src dst : List F32)
    (size : Nat) (_hcoord : coord = 0 ∨ coord = 2)
    (_hsrc : src.length = 4 * size) (hdst : 4 * size ≤ dst.length) :
    quietNaN.toVal = FVal.nan ∧
    (copyPointCloudClamped coord maxDepth src dst size).length = dst.length ∧
    ∀ i, i < size →
      (FVal.gt (rd src (4 * i + coord)).toVal maxDepth = true →
        rd (copyPointCloudClamped coord maxDepth src dst size) (4 * i) = quietNaN ∧
        rd (copyPointCloudClamped coord maxDepth src dst size) (4 * i + 1) = quietNaN ∧
        rd (copyPointCloudClamped coord maxDepth src dst size) (4 * i + 2) = quietNaN) ∧
      (FVal.gt (rd src (4 * i + coord)).toVal maxDepth = false →
        rd (copyPointCloudClamped coord maxDepth src dst size) (4 * i) = rd src (4 * i) ∧
        rd (copyPointCloudClamped coord maxDepth src dst size) (4 * i + 1) = rd src (4 * i + 1) ∧
        rd (copyPointCloudClamped coord maxDepth src dst size) (4 * i + 2) = rd src (4 * i + 2)) ∧
      rd (copyPointCloudClamped coord maxDepth src dst size) (4 * i + 3) = rd dst (4 * i + 3) := by
  refine ⟨by decide, length_copyPointCloudClamped _ _ _ _ _, ?_⟩
  intro i hi
  have e0 : 4 * ((4 * i) / 4) = 4 * i := by omega
  have e1 : 4 * ((4 * i + 1) / 4) = 4 * i := by omega
  have e2 : 4 * ((4 * i + 2) / 4) = 4 * i := by omega
  have m0 : ¬ (4 * i) % 4 = 3 := by omega
  have m1 : ¬ (4 * i + 1) % 4 = 3 := by omega
  have m2 : ¬ (4 * i + 2) % 4 = 3 := by omega
  have m3 : (4 * i + 3) % 4 = 3 := by omega
  refine ⟨?_, ?_, ?_⟩
  · intro hgt
    refine ⟨?_, ?_, ?_⟩ <;>
      · rw [rd_copyPointCloudClamped, if_pos (by omega)]
        unfold clampedCell
        simp only [e0, e1, e2, m0, m1, m2, hgt, if_false, if_true]
  · intro hgt
    refine ⟨?_, ?_, ?_⟩ <;>
      · rw [rd_copyPointCloudClamped, if_pos (by omega)]
        unfold clampedCell
        simp only [e0, e1, e2, m0, m1, m2, hgt, if_false, if_true]
        simp
  · rw [rd_copyPointCloudClamped, if_pos (by omega)]
    unfold clampedCell
    rw [if_pos m3]

/-- C3: depth clamping is idempotent.  Running `copyPointCloudClamped` with the
same threshold and axis on the output of a previous call, in place, gives back
that output cell for cell; and written into any other destination, it gives the
x, y, z cells of that output. -/
theorem copyPointCloudClamped_idempotent (coord : Nat) (maxDepth : FVal)
    (src dst : List F32) (size : Nat) (hcoord : coord = 0 ∨ coord = 2)
    (_hsrc : src.length = 4 * size) (hdst : 4 * size ≤ dst.length) :
    copyPointCloudClamped coord maxDepth
        (copyPointCloudClamped coord maxDepth src dst size)
        (copyPointCloudClamped coord maxDepth src dst size) size
      = copyPointCloudClamped coord maxDepth src dst size ∧
    ∀ (dst2 : List F32), 4 * size ≤ dst2.length →
      ∀ p, p < 4 * size → p % 4 ≠ 3 →
        rd (copyPointCloudClamped coord maxDepth
              (copyPointCloudClamped coord maxDepth src dst size) dst2 size) p
          = rd (copyPointCloudClamped coord maxDepth src dst size) p := by
  have hlen := length_copyPointCloudClamped coord maxDepth src dst size
  have key : ∀ p, p < 4 * size → p % 4 ≠ 3 →
      (if FVal.gt (rd (copyPointCloudClamped coord maxDepth src dst size)
            (4 * (p / 4) + coord)).toVal maxDepth then quietNaN
        else rd (copyPointCloudClamped coord maxDepth src dst size) p)
      = rd (copyPointCloudClamped coord maxDepth src dst size) p := by
    intro p hp hm
    have hc : (4 * (p / 4) + coord) % 4 ≠ 3 := by omega
    have hq : 4 * ((4 * (p / 4) + coord) / 4) = 4 * (p / 4) := by omega
    have h1 : rd (copyPointCloudClamped coord maxDepth src dst size) (4 * (p / 4) + coord)
        = clampedCell coord maxDepth src dst (4 * (p / 4) + coord) := by
      rw [rd_copyPointCloudClamped, if_pos (by omega)]
    have h2 : rd (copyPointCloudClamped coord maxDepth src dst size) p
        = clampedCell coord maxDepth src dst p := by
      rw [rd_copyPointCloudClamped, if_pos (by omega)]
    rw [h1, h2]
    unfold clampedCell
    rw [if_neg hc, if_neg hm, hq]
    by_cases hgt : FVal.gt (rd src (4 * (p / 4) + coord)).toVal maxDepth = true
    · simp only [hgt, if_true, gt_quietNaN]
      simp
    · have hf : FVal.gt (rd src (4 * (p / 4) + coord)).toVal maxDepth = false := by
        simpa using hgt
      simp [hf]
  refine ⟨?_, ?_⟩
  · apply ext_rd
    · rw [length_copyPointCloudClamped]
    · intro p _
      rw [rd_copyPointCloudClamped]
      by_cases h : p < 4 * size ∧
          p < (copyPointCloudClamped coord maxDepth src dst size).length
      · rw [if_pos h]
        by_cases hm : p % 4 = 3
        · unfold clampedCell
          rw [if_pos hm]
        · have := key p h.1 hm
          unfold clampedCell
          rw [if_neg hm]
          exact this
      · rw [if_neg h]
  · intro dst2 hd2 p hp hm
    rw [rd_copyPointCloudClamped coord maxDepth _ dst2 size p, if_pos (by omega)]
    have := key p hp hm
    unfold clampedCell
    rw [if_neg hm]
    exact this

/-! ### Point cloud assembly -/

theorem length_resizeData (data : List F32) (n : Nat) : (resizeData data n).length = n := by
  unfold resizeData
  simp only [List.length_append, List.length_take, List.length_replicate]
  omega

theorem length_memcpyCells (data pointMap : List F32) (n : Nat) (h : n ≤ data.length) :
    (memcpyCells data pointMap n).length = data.length := by
  unfold memcpyCells
  simp only [List.length_append, List.length_map, List.length_range, List.length_drop]
  omega

theorem length_mono8Loop (colorMode : PointCloudColorMode) (pixels : List Nat) (width : Nat)
    (rowIncrement : Int) (n : Nat) :
    ∀ (k : Nat) (imagePtr rowEndPtr : Int) (cloud : List F32),
      (mono8Loop colorMode pixels width rowIncrement n k imagePtr rowEndPtr cloud).length
        = cloud.length := by
  induction n with
  | zero => intro k imagePtr rowEndPtr cloud; rfl
  | succ n ih =>
    intro k imagePtr rowEndPtr cloud
    rw [mono8Loop]
    split <;> rw [ih, List.length_set]

theorem length_mono12Loop (colorMode : PointCloudColorMode) (pixels : List Nat) (width : Nat)
    (rowIncrement : Int) (n : Nat) :
    ∀ (k : Nat) (imagePtr rowEndPtr : Int) (cloud : List F32),
      (mono12Loop colorMode pixels width rowIncrement n k imagePtr rowEndPtr cloud).length
        = cloud.length := by
  induction n with
  | zero => intro k imagePtr rowEndPtr cloud; rfl
  | succ n ih =>
    intro k imagePtr rowEndPtr cloud
    rw [mono12Loop]
    split <;> rw [ih, List.length_set]

theorem length_rgb8Loop (colorMode : PointCloudColorMode) (pixels : List Nat) (width : Nat)
    (rowIncrement : Int) (n : Nat) :
    ∀ (k : Nat) (imagePtr rowEndPtr : Int) (cloud : List F32),
      (rgb8Loop colorMode pixels width rowIncrement n k imagePtr rowEndPtr cloud).length
        = cloud.length := by
  induction n with
  | zero => intro k imagePtr rowEndPtr cloud; rfl
  | succ n ih =>
    intro k imagePtr rowEndPtr cloud
    rw [rgb8Loop]
    split <;> rw [ih, List.length_set]

theorem length_copyPointCloudIntensity (colorMode : PointCloudColorMode) (width height : Nat)
    (left : Image) (cloud out : List F32)
    (h : copyPointCloudIntensity colorMode width height left cloud = .ok out) :
    out.length = cloud.length := by
  unfold copyPointCloudIntensity at h
  split at h
  · injection h with h; rw [← h, length_mono8Loop]
  · injection h with h; rw [← h, length_mono12Loop]
  · injection h with h; rw [← h, length_rgb8Loop]
  · cases h

theorem length_copyIntensityByMode (colorMode : PointCloudColorMode) (imageSet : ImageSet)
    (cloud out : List F32) (h : copyIntensityByMode colorMode imageSet cloud = .ok out) :
    out.length = cloud.length := by
  unfold copyIntensityByMode at h
  split at h
  · injection h with h; rw [h]
  · split at h
    · exact length_copyPointCloudIntensity _ _ _ _ _ _ h
    · exact length_copyPointCloudIntensity _ _ _ _ _ _ h
    · exact length_copyPointCloudIntensity _ _ _ _ _ _ h
    · injection h with h; rw [h]

theorem width_frameForReconstruction (cfg : Config) (calib : CalibStorage) (f : ImageSet) :
    (frameForReconstruction cfg calib f).width = f.width ∧
    (frameForReconstruction cfg calib f).height = f.height ∧
    (frameForReconstruction cfg calib f).left = f.left := by
  unfold frameForReconstruction
  by_cases h1 : cfg.useQFromCalibFile <;> by_cases h2 : cfg.rosCoordinateSystem <;>
    simp [h1, h2]

theorem reallocateIfNeeded_spec (msg : PointCloud2) (imageSet : ImageSet) :
    (reallocateIfNeeded msg imageSet).2
      = decide (msg.dataSize ≠ imageSet.width * imageSet.height * 16) ∧
    (reallocateIfNeeded msg imageSet).1.data.length = imageSet.width * imageSet.height * 4 := by
  unfold reallocateIfNeeded
  by_cases h : msg.dataSize = imageSet.width * imageSet.height * 4 * 4
  · have h2 : msg.dataSize = imageSet.width * imageSet.height * 16 := by omega
    rw [if_neg (by simpa using h)]
    refine ⟨by simp [h2], ?_⟩
    unfold PointCloud2.dataSize at h
    show msg.data.length = _
    omega
  · have h2 : ¬ msg.dataSize = imageSet.width * imageSet.height * 16 := by omega
    rw [if_pos (by simpa using h)]
    exact ⟨by simp [h2], length_resizeData _ _⟩

theorem length_copyPoints (cfg : Config) (data pointMap : List F32) (imageSet : ImageSet)
    (h : data.length = imageSet.width * imageSet.height * 4) :
    (copyPoints cfg data pointMap imageSet).length = data.length := by
  unfold copyPoints
  split
  · exact length_memcpyCells _ _ _ (by omega)
  · split <;> exact length_copyPointCloudClamped _ _ _ _ _

theorem assemblePointCloud_spec (cfg : Config) (msg : PointCloud2) (imageSet : ImageSet)
    (stamp : Int) (pointMap : List F32) :
    (assemblePointCloud cfg msg imageSet stamp pointMap).reallocated
      = decide (msg.dataSize ≠ imageSet.width * imageSet.height * 16) ∧
    ((assemblePointCloud cfg msg imageSet stamp pointMap).published = true →
      (assemblePointCloud cfg msg imageSet stamp pointMap).msg.dataSize
        = imageSet.width * imageSet.height * 16) := by
  have hr := reallocateIfNeeded_spec
    { msg with stamp := stamp, frame_id := cfg.internalFrame,
               seq := imageSet.sequenceNumber } imageSet
  have hc := length_copyPoints cfg
    (reallocateIfNeeded { msg with stamp := stamp, frame_id := cfg.internalFrame,
                                   seq := imageSet.sequenceNumber } imageSet).1.data
    pointMap imageSet hr.2
  unfold assemblePointCloud
  simp only
  split
  · rename_i out hout
    have hl := length_copyIntensityByMode _ _ _ _ hout
    refine ⟨hr.1, fun _ => ?_⟩
    simp only [PointCloud2.dataSize, hl, hc, hr.2]
    omega
  · exact ⟨hr.1, fun h => by simp at h⟩
  · exact ⟨hr.1, fun h => by simp at h⟩

/-- Whenever a call publishes, the reallocation branch ran exactly if the byte
size of the payload differed from `width*height*16`, and the payload published
has `width*height*16` bytes. -/
theorem publishPointCloudMsg_published (cfg : Config) (calib : CalibStorage)
    (recon : ImageSet → Option (List F32)) (msg : PointCloud2) (imageSet : ImageSet)
    (stamp : Int)
    (h : (publishPointCloudMsg cfg calib recon msg imageSet stamp).published = true) :
    (publishPointCloudMsg cfg calib recon msg imageSet stamp).reallocated
      = decide (msg.dataSize ≠ imageSet.width * imageSet.height * 16) ∧
    (publishPointCloudMsg cfg calib recon msg imageSet stamp).msg.dataSize
      = imageSet.width * imageSet.height * 16 := by
  obtain ⟨hw, hh, _⟩ := width_frameForReconstruction cfg calib imageSet
  unfold publishPointCloudMsg at h ⊢
  cases hd : imageSet.disparity with
  | none => rw [hd] at h; simp at h
  | some d =>
    rw [hd] at h
    simp only at h ⊢
    by_cases hfmt : d.format ≠ ImageFormat.FORMAT_12_BIT_MONO
    · rw [if_pos hfmt] at h; simp at h
    · rw [if_neg hfmt] at h ⊢
      by_cases hq : staticQUsable cfg calib = false
      · rw [if_pos hq] at h; simp at h
      · rw [if_neg hq] at h ⊢
        cases hrec : recon (frameForReconstruction cfg calib imageSet) with
        | none => rw [hrec] at h; simp at h
        | some pointMap =>
          rw [hrec] at h
          simp only at h ⊢
          have ha := assemblePointCloud_spec cfg msg
            (frameForReconstruction cfg calib imageSet) stamp pointMap
          rw [hw, hh] at ha
          exact ⟨ha.1, ha.2 h⟩

theorem copyIntensityByMode_ok (colorMode : PointCloudColorMode) (imageSet : ImageSet)
    (cloud : List F32) (h : leftImageHandled colorMode imageSet = true) :
    ∃ out, copyIntensityByMode colorMode imageSet cloud = .ok out := by
  unfold leftImageHandled at h
  unfold copyIntensityByMode
  cases hl : imageSet.left with
  | none => exact ⟨_, rfl⟩
  | some left =>
    rw [hl] at h
    cases colorMode <;> cases hf : left.format <;>
      simp_all [copyPointCloudIntensity]

theorem copyIntensityByMode_not_ok (colorMode : PointCloudColorMode) (imageSet : ImageSet)
    (cloud : List F32) (h : leftImageHandled colorMode imageSet = false) :
    copyIntensityByMode colorMode imageSet cloud = .raised "Invalid pixel format!" := by
  unfold leftImageHandled at h
  unfold copyIntensityByMode
  cases hl : imageSet.left with
  | none => rw [hl] at h; simp at h
  | some left =>
    rw [hl] at h
    cases colorMode <;> cases hf : left.format <;>
      simp_all [copyPointCloudIntensity]

theorem assemblePointCloud_published (cfg : Config) (msg : PointCloud2) (imageSet : ImageSet)
    (stamp : Int) (pointMap : List F32) :
    (assemblePointCloud cfg msg imageSet stamp pointMap).published
      = leftImageHandled cfg.pointCloudColorMode imageSet := by
  unfold assemblePointCloud
  simp only
  cases hh : leftImageHandled cfg.pointCloudColorMode imageSet with
  | true =>
    obtain ⟨out, hout⟩ := copyIntensityByMode_ok cfg.pointCloudColorMode imageSet
      (copyPoints cfg (reallocateIfNeeded
        { msg with stamp := stamp, frame_id := cfg.internalFrame,
                   seq := imageSet.sequenceNumber } imageSet).1.data pointMap imageSet) hh
    rw [hout]
  | false =>
    rw [copyIntensityByMode_not_ok _ _ _ hh]

theorem leftImageHandled_frameForReconstruction (cfg : Config) (calib : CalibStorage)
    (f : ImageSet) (mode : PointCloudColorMode) :
    leftImageHandled mode (frameForReconstruction cfg calib f) = leftImageHandled mode f := by
  unfold leftImageHandled
  rw [(width_frameForReconstruction cfg calib f).2.2]

theorem publishPointCloudMsg_published_iff (cfg : Config) (calib : CalibStorage)
    (recon : ImageSet → Option (List F32)) (msg : PointCloud2) (imageSet : ImageSet)
    (stamp : Int) :
    (publishPointCloudMsg cfg calib recon msg imageSet stamp).published
      = assembles cfg calib recon imageSet := by
  unfold publishPointCloudMsg assembles
  cases hd : imageSet.disparity with
  | none => rfl
  | some d =>
    simp only
    by_cases hfmt : d.format = ImageFormat.FORMAT_12_BIT_MONO
    · rw [if_neg (by simpa using hfmt)]
      cases hq : staticQUsable cfg calib with
      | false => simp
      | true =>
        cases hrec : recon (frameForReconstruction cfg calib imageSet) with
        | none => simp
        | some pointMap =>
          simp [hfmt, assemblePointCloud_published, leftImageHandled_frameForReconstruction]
    · rw [if_pos (by simpa using hfmt)]
      simp [hfmt]

/-- C4: for every frame of width and height at least 1 and every prior state of
the message object, whenever `publishPointCloudMsg` publishes, the payload has
exactly `width*height*16` bytes; and it does publish every frame it assembles. -/
theorem publishPointCloudMsg_dataSize (cfg : Config) (calib : CalibStorage)
    (recon : ImageSet → Option (List F32)) (msg : PointCloud2) (imageSet : ImageSet)
    (stamp : Int) (_hw : 1 ≤ imageSet.width) (_hh : 1 ≤ imageSet.height) :
    ((publishPointCloudMsg cfg calib recon msg imageSet stamp).published = true →
      (publishPointCloudMsg cfg calib recon msg imageSet stamp).msg.dataSize
        = imageSet.width * imageSet.height * 16) ∧
    (assembles cfg calib recon imageSet = true →
      (publishPointCloudMsg cfg calib recon msg imageSet stamp).published = true ∧
      (publishPointCloudMsg cfg calib recon msg imageSet stamp).msg.dataSize
        = imageSet.width * imageSet.height * 16) := by
  refine ⟨fun hp => (publishPointCloudMsg_published cfg calib recon msg imageSet stamp hp).2,
    fun hf => ?_⟩
  have hp : (publishPointCloudMsg cfg calib recon msg imageSet stamp).published = true := by
    rw [publishPointCloudMsg_published_iff, hf]
  exact ⟨hp, (publishPointCloudMsg_published cfg calib recon msg imageSet stamp hp).2⟩

/-- C5, as stated, fails: 4x3 and 3x4 are different resolutions, yet from a
payload sized for 4x3, assembling a 3x4 frame and then a 4x3 frame never runs
the reallocation branch, because both payloads have 192 bytes. -/
theorem reallocations_same_pixel_count :
    Resolution.mk 4 3 ≠ Resolution.mk 3 4 ∧
    (payloadOf 4 3 48 ⟨0⟩).dataSize = 4 * 3 * 16 ∧
    assembles plainConfig closedStorage flatRecon (disparityFrame 3 4) = true ∧
    assembles plainConfig closedStorage flatRecon (disparityFrame 4 3) = true ∧
    reallocations (publishPointClouds plainConfig closedStorage flatRecon
      (payloadOf 4 3 48 ⟨0⟩) [(disparityFrame 3 4, 1), (disparityFrame 4 3, 2)]) = 0 := by
  refine ⟨by decide, by decide, by decide, by decide, ?_⟩
  decide

/-- C5, amended: for two resolutions with different pixel counts
(`width*height`), from a payload sized for A, assembling a frame of resolution B
and then one of resolution A runs the reallocation branch exactly twice, and a
further assembled frame of the resolution of the previous one does not run it. -/
theorem reallocations_on_pixel_count_change (cfg : Config) (calib : CalibStorage)
    (recon : ImageSet → Option (List F32)) (msg : PointCloud2)
    (frameB frameA frameA2 : ImageSet) (t1 t2 t3 : Int)
    (hsize : msg.dataSize = frameA.width * frameA.height * 16)
    (hne : frameA.width * frameA.height ≠ frameB.width * frameB.height)
    (hsame : frameA2.width = frameA.width ∧ frameA2.height = frameA.height)
    (hB : assembles cfg calib recon frameB = true)
    (hA : assembles cfg calib recon frameA = true)
    (hA2 : assembles cfg calib recon frameA2 = true) :
    reallocations (publishPointClouds cfg calib recon msg
      [(frameB, t1), (frameA, t2)]) = 2 ∧
    reallocations (publishPointClouds cfg calib recon msg
      [(frameB, t1), (frameA, t2), (frameA2, t3)]) = 2 := by
  have p1 := publishPointCloudMsg_published cfg calib recon msg frameB t1
    (by rw [publishPointCloudMsg_published_iff, hB])
  have p2 := publishPointCloudMsg_published cfg calib recon
    (publishPointCloudMsg cfg calib recon msg frameB t1).msg frameA t2
    (by rw [publishPointCloudMsg_published_iff, hA])
  have p3 := publishPointCloudMsg_published cfg calib recon
    (publishPointCloudMsg cfg calib recon
      (publishPointCloudMsg cfg calib recon msg frameB t1).msg frameA t2).msg frameA2 t3
    (by rw [publishPointCloudMsg_published_iff, hA2])
  have r1 : (publishPointCloudMsg cfg calib recon msg frameB t1).reallocated = true := by
    rw [p1.1, hsize]
    simp only [ne_eq, decide_eq_true_eq]
    omega
  have r2 : (publishPointCloudMsg cfg calib recon
      (publishPointCloudMsg cfg calib recon msg frameB t1).msg frameA t2).reallocated
      = true := by
    rw [p2.1, p1.2]
    simp only [ne_eq, decide_eq_true_eq]
    omega
  have r3 : (publishPointCloudMsg cfg calib recon
      (publishPointCloudMsg cfg calib recon
        (publishPointCloudMsg cfg calib recon msg frameB t1).msg frameA t2).msg
      frameA2 t3).reallocated = false := by
    rw [p3.1, p2.2, hsame.1, hsame.2]
    simp
  simp [publishPointClouds, reallocations, r1, r2, r3]

/-! ### Float division and the 12-bit packing -/

theorem roundDiv_bounds (n d : Nat) (hd : 0 < d) :
    2 * (roundDiv n d * d) ≤ 2 * n + d ∧ 2 * n ≤ 2 * (roundDiv n d * d) + d ∧
    n / d ≤ roundDiv n d ∧ roundDiv n d ≤ n / d + 1 := by
  have hdm := Nat.div_add_mod n d
  have hlt := Nat.mod_lt n hd
  have hx : (n / d) * d = d * (n / d) := Nat.mul_comm _ _
  have hx1 : (n / d + 1) * d = d * (n / d) + d := by ring
  unfold roundDiv
  simp only
  split
  · rw [hx]; omega
  · split
    · rw [hx1]; omega
    · rcases Nat.mod_two_eq_zero_or_one (n / d) with h | h
      · rw [h, Nat.add_zero, hx]; omega
      · rw [h, hx1]; omega

theorem log2_bracket (n k : Nat) (h1 : 2 ^ k ≤ n) (h2 : n < 2 ^ (k + 1)) : Nat.log2 n = k := by
  have hn : n ≠ 0 := by
    have : 0 < 2 ^ k := Nat.pow_pos (by norm_num)
    omega
  have a : ¬ Nat.log2 n < k := by
    rw [Nat.log2_lt hn]; omega
  have b : Nat.log2 n < k + 1 := by
    rw [Nat.log2_lt hn]; exact h2
  omega

theorem toVal_normal (E r : Nat) (hE : E ≤ 250) (h1 : 2 ^ 23 ≤ r) (h2 : r ≤ 2 ^ 24) :
    F32.toVal ⟨E * 2 ^ 23 + r⟩ = FVal.finite ((r : ℚ) * 2 ^ (E + 1) / 2 ^ 150) := by
  norm_num at h1 h2
  unfold F32.toVal
  simp only
  norm_num
  rcases Nat.lt_or_ge r 16777216 with hr | hr
  · have e1 : (E * 8388608 + r) / 8388608 % 256 = E + 1 := by omega
    have e2 : (E * 8388608 + r) / 2147483648 % 2 = 0 := by omega
    have e3 : (E * 8388608 + r) % 8388608 = r - 8388608 := by omega
    rw [e1, e2, e3]
    have : ¬ E + 1 = 255 := by omega
    simp only [this, if_false, if_true, Nat.succ_ne_zero]
    congr 1
    have : ((r - 8388608 : Nat) : ℚ) = (r : ℚ) - 8388608 := by
      rw [Nat.cast_sub h1]; norm_num
    rw [this]
    ring
  · have hr2 : r = 16777216 := by omega
    subst hr2
    have e1 : (E * 8388608 + 16777216) / 8388608 % 256 = E + 2 := by omega
    have e2 : (E * 8388608 + 16777216) / 2147483648 % 2 = 0 := by omega
    have e3 : (E * 8388608 + 16777216) % 8388608 = 0 := by omega
    rw [e1, e2, e3]
    have : ¬ E + 2 = 255 := by omega
    simp only [this, if_false, if_true]
    norm_num
    ring

theorem divNat_near (a b L : Nat) (hb : 0 < b) (hL : Nat.log2 (a * 2 ^ 200 / b) = L)
    (hQ : a * 2 ^ 200 / b ≠ 0) (h74 : 74 ≤ L) (h300 : L ≤ 300) :
    ∃ v : ℚ, (F32.divNat a b).toVal = FVal.finite v ∧
      |v - (a : ℚ) / b| ≤ (a : ℚ) / b / 2 ^ 24 := by
  have hlo : 2 ^ L ≤ a * 2 ^ 200 / b := hL ▸ Nat.log2_self_le hQ
  have hhi : a * 2 ^ 200 / b < 2 ^ (L + 1) := hL ▸ Nat.lt_log2_self
  have hD : 0 < b * 2 ^ (L - 23) := Nat.mul_pos hb (Nat.pow_pos (by norm_num))
  have hL23 : 2 ^ 23 * 2 ^ (L - 23) = 2 ^ L := by
    rw [← pow_add]; congr 1; omega
  have hL24 : 2 ^ 24 * 2 ^ (L - 23) = 2 ^ (L + 1) := by
    rw [← pow_add]; congr 1; omega
  -- the quotient of the scaled operands has 24 significant bits
  have hN1 : 2 ^ 23 * (b * 2 ^ (L - 23)) ≤ a * 2 ^ 200 := by
    calc 2 ^ 23 * (b * 2 ^ (L - 23)) = b * 2 ^ L := by rw [← hL23]; ring
      _ ≤ b * (a * 2 ^ 200 / b) := Nat.mul_le_mul_left b hlo
      _ ≤ a * 2 ^ 200 := Nat.mul_div_le _ _
  have hN2 : a * 2 ^ 200 < 2 ^ 24 * (b * 2 ^ (L - 23)) := by
    calc a * 2 ^ 200 < b * (a * 2 ^ 200 / b + 1) := Nat.lt_mul_div_succ _ hb
      _ ≤ b * 2 ^ (L + 1) := Nat.mul_le_mul_left b hhi
      _ = 2 ^ 24 * (b * 2 ^ (L - 23)) := by rw [← hL24]; ring
  obtain ⟨hr1, hr2, hr3, hr4⟩ := roundDiv_bounds (a * 2 ^ 200) (b * 2 ^ (L - 23)) hD
  have hq1 : 2 ^ 23 ≤ a * 2 ^ 200 / (b * 2 ^ (L - 23)) :=
    (Nat.le_div_iff_mul_le hD).2 hN1
  have hq2 : a * 2 ^ 200 / (b * 2 ^ (L - 23)) < 2 ^ 24 :=
    (Nat.div_lt_iff_lt_mul hD).2 hN2
  have hrlo : 2 ^ 23 ≤ roundDiv (a * 2 ^ 200) (b * 2 ^ (L - 23)) := le_trans hq1 hr3
  have hrhi : roundDiv (a * 2 ^ 200) (b * 2 ^ (L - 23)) ≤ 2 ^ 24 := by omega
  have hsh : max (L - 23) 51 = L - 23 := by omega
  have hbits : F32.divNat a b
      = ⟨(L - 74) * 2 ^ 23 + roundDiv (a * 2 ^ 200) (b * 2 ^ (L - 23))⟩ := by
    unfold F32.divNat
    simp only [hL, hsh]
    have e : L - 23 - 51 = L - 74 := by omega
    rw [e]
    congr 1
    apply Nat.min_eq_left
    have : (L - 74) * 2 ^ 23 ≤ 226 * 2 ^ 23 := Nat.mul_le_mul_right _ (by omega)
    norm_num at this hrhi ⊢
    omega
  refine ⟨_, by rw [hbits]; exact toVal_normal (L - 74) _ (by omega) hrlo hrhi, ?_⟩
  generalize roundDiv (a * 2 ^ 200) (b * 2 ^ (L - 23)) = r at hr1 hr2
  have hE : L - 74 + 1 = L - 73 := by omega
  rw [hE]
  have hP : (2 : ℚ) ^ (L - 23) = 2 ^ (L - 73) * 2 ^ 50 := by
    rw [← pow_add]; congr 1; omega
  have hbq : (0 : ℚ) < b := by exact_mod_cast hb
  have c1 : (2 : ℚ) * (r * (b * (2 ^ (L - 73) * 2 ^ 50))) ≤ 2 * (a * 2 ^ 200) + b * (2 ^ (L - 73) * 2 ^ 50) := by
    rw [← hP]; exact_mod_cast hr1
  have c2 : (2 : ℚ) * (a * 2 ^ 200) ≤ 2 * (r * (b * (2 ^ (L - 73) * 2 ^ 50))) + b * (2 ^ (L - 73) * 2 ^ 50) := by
    rw [← hP]; exact_mod_cast hr2
  have c3 : (2 : ℚ) ^ 23 * (b * (2 ^ (L - 73) * 2 ^ 50)) ≤ a * 2 ^ 200 := by
    rw [← hP]; exact_mod_cast hN1
  generalize (2 : ℚ) ^ (L - 73) = P at c1 c2 c3 ⊢
  have key : (r : ℚ) * P / 2 ^ 150 - a / b = (r * (b * (P * 2 ^ 50)) - a * 2 ^ 200) / (b * 2 ^ 200) := by
    field_simp
    ring
  have key2 : (a : ℚ) / b / 2 ^ 24 = (a * 2 ^ 200 / 2 ^ 24) / (b * 2 ^ 200) := by
    field_simp
    ring
  rw [key, key2, abs_le]
  have hden : (0 : ℚ) < b * 2 ^ 200 := by positivity
  constructor
  · rw [← neg_div, div_le_div_iff_of_pos_right hden]
    linarith
  · rw [div_le_div_iff_of_pos_right hden]
    linarith

theorem divNat_4095 (s : Nat) (h1 : 1 ≤ s) (h2 : s ≤ 4095) :
    ∃ v : ℚ, (F32.divNat s 4095).toVal = FVal.finite v ∧
      |v - (s : ℚ) / 4095| ≤ (s : ℚ) / 4095 / 2 ^ 24 := by
  have hlo : 2 ^ 188 ≤ s * 2 ^ 200 / 4095 := by
    rw [Nat.le_div_iff_mul_le (by norm_num)]
    norm_num
    omega
  have hhi : s * 2 ^ 200 / 4095 < 2 ^ 201 := by
    rw [Nat.div_lt_iff_lt_mul (by norm_num)]
    norm_num
    omega
  have hQ : s * 2 ^ 200 / 4095 ≠ 0 := by
    have : 0 < 2 ^ 188 := Nat.pow_pos (by norm_num)
    omega
  have a : ¬ Nat.log2 (s * 2 ^ 200 / 4095) < 188 := by
    rw [Nat.log2_lt hQ]; omega
  have b : Nat.log2 (s * 2 ^ 200 / 4095) < 201 := by
    rw [Nat.log2_lt hQ]; exact hhi
  have := divNat_near s 4095 _ (by norm_num) rfl hQ (by omega) (by omega)
  simpa using this


theorem divNat_one_4095 : F32.divNat 1 4095 = ⟨964691969⟩ := by
  have hL : Nat.log2 (1 * 2 ^ 200 / 4095) = 188 :=
    log2_bracket _ _ (by norm_num) (by norm_num)
  unfold F32.divNat
  simp only [hL]
  norm_num [roundDiv]

/-- C6, as stated, fails in its float half: for the sample `s = 1` the value
written in `RGB_SEPARATE` mode is the float `8390657 / 2^35`, which is not
`1/4095`. -/
theorem packMono12_float_not_exact :
    (packMono12 .RGB_SEPARATE 1 ⟨0⟩).toVal = FVal.finite (8390657 / 34359738368) ∧
    (8390657 / 34359738368 : ℚ) ≠ 1 / 4095 := by
  refine ⟨?_, by norm_num⟩
  show (F32.divNat 1 4095).toVal = _
  rw [divNat_one_4095]
  unfold F32.toVal
  norm_num

/-- C6, amended: for a 12-bit sample `s ≤ 4095` the byte written in `INTENSITY`
mode is `s / 16`, a value of at most 255, the other bytes of the cell keeping
their value; and the float written in `RGB_SEPARATE` mode is a finite number
within a relative error of `2^-24` of `s / 4095`. -/
theorem packMono12_spec (s : Nat) (cell : F32) (hs : s ≤ 4095) :
    (packMono12 .INTENSITY s cell).bits % 256 = s / 16 ∧ s / 16 ≤ 255 ∧
    (packMono12 .INTENSITY s cell).bits / 256 = cell.bits / 256 ∧
    ∃ v : ℚ, (packMono12 .RGB_SEPARATE s cell).toVal = FVal.finite v ∧
      |v - (s : ℚ) / 4095| ≤ (s : ℚ) / 4095 / 2 ^ 24 := by
  refine ⟨?_, by omega, ?_, ?_⟩
  · show (cell.bits / 256 * 256 + s / 16 % 256) % 256 = s / 16
    omega
  · show (cell.bits / 256 * 256 + s / 16 % 256) / 256 = cell.bits / 256
    omega
  · show ∃ v : ℚ, (F32.divNat s 4095).toVal = FVal.finite v ∧ _
    rcases Nat.eq_zero_or_pos s with h0 | hpos
    · subst h0
      refine ⟨0, ?_, by norm_num⟩
      have : F32.divNat 0 4095 = ⟨0⟩ := by
        unfold F32.divNat
        norm_num [roundDiv, Nat.log2]
      rw [this]
      unfold F32.toVal
      norm_num
    · exact divNat_4095 s hpos hs

/-! ### Image publication -/

/-- C8 fails on the code: for the key `M1` holding three values and a
destination of nine, `readCalibrationArray` raises nothing and copies the three
values over the start of the destination. -/
theorem readCalibrationArray_short :
    (shortM1Storage.doubles "M1").length ≠ (List.replicate 9 (FVal.finite 0)).length ∧
    readCalibrationArray shortM1Storage "M1" (List.replicate 9 (FVal.finite 0))
      = .ok [FVal.finite 1, FVal.finite 2, FVal.finite 3, FVal.finite 0, FVal.finite 0,
             FVal.finite 0, FVal.finite 0, FVal.finite 0, FVal.finite 0] := by
  refine ⟨by decide, ?_⟩
  rfl

theorem initCameraInfo_no_calibration (cfg : Config) (calib : CalibStorage)
    (fresh : StereoCameraInfo) (imageSet : ImageSet) (hcal : cfg.calibFile = "") :
    initCameraInfo cfg calib fresh imageSet
      = .ok { fresh with frame_id := cfg.internalFrame, seq := imageSet.sequenceNumber } := by
  unfold initCameraInfo
  simp [hcal]

theorem publishIfDue_spec (msg : StereoCameraInfo) (last stamp : Int) (imageSet : ImageSet) :
    ((publishIfDue msg last stamp imageSet).2.isSome = true ↔ stamp - last > oneSecond) ∧
    (∀ m, (publishIfDue msg last stamp imageSet).2 = some m →
      (publishIfDue msg last stamp imageSet).1 = ⟨some m, stamp⟩ ∧ m.stamp = stamp ∧
      calibrationFields m = calibrationFields msg) ∧
    ((publishIfDue msg last stamp imageSet).2 = none →
      (publishIfDue msg last stamp imageSet).1 = ⟨some msg, last⟩) := by
  unfold publishIfDue
  by_cases h : stamp - last > oneSecond
  · simp only [h, if_true, Option.isSome_some, true_and, Option.some.injEq, iff_true]
    refine ⟨?_, fun hn => by simp at hn⟩
    intro m hm
    subst hm
    refine ⟨rfl, rfl, ?_⟩
    by_cases hq : (rd imageSet.qMatrix 0).neZero = true <;> simp [hq, calibrationFields]
  · simp [h]

/-- C7, as stated, fails: with no calibration file configured, the first call of
`publishCameraInfo` two seconds after the epoch, for a 4x3 disparity frame with an
all zero Q matrix, publishes a camera information message. -/
theorem cameraInfo_published_without_calibration :
    plainConfig.calibFile = "" ∧
    (loadCameraCalibration plainConfig.calibFile (fun _ => none)).2 = true ∧
    (disparityFrame 4 3).qMatrix = List.replicate 16 ⟨0⟩ ∧
    publishedCount (publishCameraInfos plainConfig closedStorage blankStereoCameraInfo
      startState [(2000000000, disparityFrame 4 3)]) = some 1 := by
  refine ⟨rfl, by decide, rfl, ?_⟩
  decide

theorem publishIfDue_fields (msg : StereoCameraInfo) (last stamp : Int) (imageSet : ImageSet) :
    ∀ m, (publishIfDue msg last stamp imageSet).1.camInfoMsg = some m →
      calibrationFields m = calibrationFields msg := by
  intro m hm
  have hs := publishIfDue_spec msg last stamp imageSet
  cases ho : (publishIfDue msg last stamp imageSet).2 with
  | none =>
    rw [hs.2.2 ho] at hm
    simp only [Option.some.injEq] at hm
    rw [← hm]
  | some m2 =>
    obtain ⟨h1, _, h3⟩ := hs.2.1 m2 ho
    rw [h1] at hm
    simp only [Option.some.injEq] at hm
    rw [← hm, h3]

theorem publishCameraInfo_defined (cfg : Config) (calib : CalibStorage)
    (fresh : StereoCameraInfo) (st : CamInfoState) (stamp : Int) (imageSet : ImageSet)
    (hcal : cfg.calibFile = "") :
    ∃ st1 out, publishCameraInfo cfg calib fresh st stamp imageSet = .ok (st1, out) ∧
      (out.isSome = true ↔ stamp - st.lastCamInfoPublish > oneSecond) ∧
      (∀ m, st1.camInfoMsg = some m →
        calibrationFields m = calibrationFields (st.camInfoMsg.getD fresh)) := by
  unfold publishCameraInfo
  cases hc : st.camInfoMsg with
  | none =>
    simp only [initCameraInfo_no_calibration cfg calib fresh imageSet hcal, Outcome.bind]
    refine ⟨_, _, rfl, (publishIfDue_spec _ _ _ _).1, ?_⟩
    intro m hm
    exact (publishIfDue_fields _ _ _ _ m hm).trans rfl
  | some msg =>
    simp only
    refine ⟨_, _, rfl, (publishIfDue_spec _ _ _ _).1, ?_⟩
    intro m hm
    exact publishIfDue_fields _ _ _ _ m hm

theorem publishCameraInfos_defined (cfg : Config) (calib : CalibStorage)
    (fresh : StereoCameraInfo) (hcal : cfg.calibFile = "") (calls : List (Int × ImageSet)) :
    ∀ st : CamInfoState,
      ∃ st1 msgs, publishCameraInfos cfg calib fresh st calls = .ok (st1, msgs) := by
  induction calls with
  | nil => intro st; exact ⟨st, [], rfl⟩
  | cons call rest ih =>
    intro st
    obtain ⟨stamp, imageSet⟩ := call
    obtain ⟨st1, out, h1, _⟩ := publishCameraInfo_defined cfg calib fresh st stamp imageSet hcal
    obtain ⟨st2, msgs, h2⟩ := ih st1
    refine ⟨st2, out.toList ++ msgs, ?_⟩
    rw [publishCameraInfos, h1]
    simp only [Outcome.bind, h2]

/-- C7, amended: when no calibration file is configured, `publishCameraInfo` reads
nothing from the calibration storage and fills none of the fields that come from
it, and it returns and publishes on exactly the calls with
`stamp - lastCamInfoPublish` above one second, over every sequence of calls. -/
theorem publishCameraInfo_without_calibration (cfg : Config) (calib : CalibStorage)
    (fresh : StereoCameraInfo) (st : CamInfoState) (stamp : Int) (imageSet : ImageSet)
    (hcal : cfg.calibFile = "") :
    (∃ st1 out, publishCameraInfo cfg calib fresh st stamp imageSet = .ok (st1, out) ∧
      (out.isSome = true ↔ stamp - st.lastCamInfoPublish > oneSecond) ∧
      (∀ m, st1.camInfoMsg = some m →
        calibrationFields m = calibrationFields (st.camInfoMsg.getD fresh))) ∧
    (∀ calib2 : CalibStorage,
      publishCameraInfo cfg calib2 fresh st stamp imageSet
        = publishCameraInfo cfg calib fresh st stamp imageSet) ∧
    (∀ calls : List (Int × ImageSet),
      ∃ st1 msgs, publishCameraInfos cfg calib fresh st calls = .ok (st1, msgs)) := by
  refine ⟨publishCameraInfo_defined cfg calib fresh st stamp imageSet hcal, ?_,
    fun calls => publishCameraInfos_defined cfg calib fresh hcal calls st⟩
  intro calib2
  unfold publishCameraInfo
  cases hc : st.camInfoMsg with
  | none =>
    simp only [initCameraInfo_no_calibration cfg calib fresh imageSet hcal,
      initCameraInfo_no_calibration cfg calib2 fresh imageSet hcal]
  | some msg => rfl

theorem publishCameraInfo_ok (cfg : Config) (calib : CalibStorage) (fresh : StereoCameraInfo)
    (st st1 : CamInfoState) (stamp : Int) (imageSet : ImageSet)
    (out : Option StereoCameraInfo)
    (h : publishCameraInfo cfg calib fresh st stamp imageSet = .ok (st1, out)) :
    ∃ msg, (st.camInfoMsg = some msg ∨
        (st.camInfoMsg = none ∧ initCameraInfo cfg calib fresh imageSet = .ok msg)) ∧
      (st1, out) = publishIfDue msg st.lastCamInfoPublish stamp imageSet := by
  unfold publishCameraInfo at h
  cases hc : st.camInfoMsg with
  | none =>
    rw [hc] at h
    simp only at h
    cases hi : initCameraInfo cfg calib fresh imageSet with
    | ok msg =>
      rw [hi] at h
      simp only [Outcome.bind, Outcome.ok.injEq] at h
      exact ⟨msg, Or.inr ⟨rfl, rfl⟩, h.symm⟩
    | raised w => rw [hi] at h; simp [Outcome.bind] at h
    | undefined => rw [hi] at h; simp [Outcome.bind] at h
  | some msg =>
    rw [hc] at h
    simp only [Outcome.ok.injEq] at h
    exact ⟨msg, Or.inl rfl, h.symm⟩

theorem publishCameraInfos_spaced (cfg : Config) (calib : CalibStorage)
    (fresh : StereoCameraInfo) (calls : List (Int × ImageSet)) :
    ∀ (st st1 : CamInfoState) (msgs : List StereoCameraInfo),
      publishCameraInfos cfg calib fresh st calls = .ok (st1, msgs) →
      spacedFrom st.lastCamInfoPublish (msgs.map fun m => m.stamp) := by
  induction calls with
  | nil =>
    intro st st1 msgs h
    simp only [publishCameraInfos, Outcome.ok.injEq, Prod.mk.injEq] at h
    rw [← h.2]
    exact List.Chain.nil
  | cons call rest ih =>
    intro st st1 msgs h
    obtain ⟨stamp, imageSet⟩ := call
    rw [publishCameraInfos] at h
    cases hstep : publishCameraInfo cfg calib fresh st stamp imageSet with
    | raised w => rw [hstep] at h; simp [Outcome.bind] at h
    | undefined => rw [hstep] at h; simp [Outcome.bind] at h
    | ok step =>
      rw [hstep] at h
      simp only [Outcome.bind] at h
      cases htail : publishCameraInfos cfg calib fresh step.1 rest with
      | raised w => rw [htail] at h; simp at h
      | undefined => rw [htail] at h; simp at h
      | ok tail =>
        rw [htail] at h
        simp only [Outcome.ok.injEq, Prod.mk.injEq] at h
        have iht := ih step.1 tail.1 tail.2 htail
        obtain ⟨msg, _, hpub⟩ := publishCameraInfo_ok cfg calib fresh st step.1 stamp imageSet
          step.2 hstep
        have hs := publishIfDue_spec msg st.lastCamInfoPublish stamp imageSet
        rw [← hpub] at hs
        rw [← h.2]
        unfold spacedFrom at iht ⊢
        cases hout : step.2 with
        | none =>
          have := hs.2.2 hout
          simp only at this
          rw [this] at iht
          simpa using iht
        | some m =>
          obtain ⟨h1, h2, _⟩ := hs.2.1 m hout
          have hdue : stamp - st.lastCamInfoPublish > oneSecond := by
            have := hs.1
            simp only [hout, Option.isSome_some, true_iff] at this
            exact this
          simp only at h1
          rw [h1] at iht
          simp only [Option.toList, List.map_append, List.map_cons, List.map_nil,
            List.singleton_append, h2]
          exact List.Chain.cons hdue iht

/-- C9: `publishCameraInfo` publishes, and sets `lastCamInfoPublish` to the stamp
of the frame, exactly when `stamp - lastCamInfoPublish` is above one second; over
any sequence of calls the stamps of consecutive publications are more than one
second apart; and a call that does not publish leaves `lastCamInfoPublish` and
the cached message, its Q matrix included, as they were (on a first call the
cache becomes the message built from the calibration, whatever the frame holds
as Q matrix).  A call on an existing cache always returns. -/
theorem publishCameraInfo_rate_limit (cfg : Config) (calib : CalibStorage)
    (fresh : StereoCameraInfo) :
    (∀ (st st1 : CamInfoState) (stamp : Int) (imageSet : ImageSet)
        (out : Option StereoCameraInfo),
      publishCameraInfo cfg calib fresh st stamp imageSet = .ok (st1, out) →
        (out.isSome = true ↔ stamp - st.lastCamInfoPublish > oneSecond) ∧
        (∀ m, out = some m →
          st1.lastCamInfoPublish = stamp ∧ m.stamp = stamp ∧ st1.camInfoMsg = some m) ∧
        (out = none →
          st1.lastCamInfoPublish = st.lastCamInfoPublish ∧
          (∀ m, st.camInfoMsg = some m → st1.camInfoMsg = some m) ∧
          (st.camInfoMsg = none → ∀ m, initCameraInfo cfg calib fresh imageSet = .ok m →
            st1.camInfoMsg = some m))) ∧
    (∀ (st st1 : CamInfoState) (calls : List (Int × ImageSet))
        (msgs : List StereoCameraInfo),
      publishCameraInfos cfg calib fresh st calls = .ok (st1, msgs) →
        spacedFrom st.lastCamInfoPublish (msgs.map fun m => m.stamp)) ∧
    (∀ (st : CamInfoState) (stamp : Int) (imageSet : ImageSet),
      st.camInfoMsg ≠ none →
        ∃ st1 out, publishCameraInfo cfg calib fresh st stamp imageSet = .ok (st1, out)) := by
  refine ⟨?_, ?_, ?_⟩
  · intro st st1 stamp imageSet out h
    obtain ⟨msg, hmsg, hpub⟩ := publishCameraInfo_ok cfg calib fresh st st1 stamp imageSet out h
    have hs := publishIfDue_spec msg st.lastCamInfoPublish stamp imageSet
    rw [← hpub] at hs
    simp only at hs
    refine ⟨hs.1, ?_, ?_⟩
    · intro m hm
      obtain ⟨h1, h2, _⟩ := hs.2.1 m hm
      rw [h1]
      exact ⟨rfl, h2, rfl⟩
    · intro hn
      have h1 := hs.2.2 hn
      rw [h1]
      refine ⟨rfl, ?_, ?_⟩
      · intro m hm
        rcases hmsg with hx | hx
        · rw [hx] at hm
          exact hm
        · rw [hx.1] at hm
          cases hm
      · intro hnone m hm
        rcases hmsg with hx | hx
        · rw [hx] at hnone
          cases hnone
        · rw [hx.2] at hm
          simp only [Outcome.ok.injEq] at hm
          rw [hm]
  · intro st st1 calls msgs h
    exact publishCameraInfos_spaced cfg calib fresh calls st st1 msgs h
  · intro st stamp imageSet hne
    unfold publishCameraInfo
    cases hc : st.camInfoMsg with
    | none => exact absurd hc hne
    | some msg => exact ⟨_, _, rfl⟩

/-! ### Colour packing of the 8-bit mono image -/

theorem row_col_unique (w r c row col : Nat) (hc : c < w) (hcol : col < w)
    (h : r * w + c = row * w + col) : r = row ∧ c = col := by
  have hw : 0 < w := by omega
  have e1 : (r * w + c) / w = r := by
    rw [Nat.add_comm, Nat.add_mul_div_right _ _ hw, Nat.div_eq_of_lt hc, Nat.zero_add]
  have e2 : (row * w + col) / w = row := by
    rw [Nat.add_comm, Nat.add_mul_div_right _ _ hw, Nat.div_eq_of_lt hcol, Nat.zero_add]
  have hr : r = row := by rw [← e1, ← e2, h]
  subst hr
  exact ⟨rfl, by omega⟩

theorem rd_mono8Loop_frame (colorMode : PointCloudColorMode) (pixels : List Nat)
    (width : Nat) (rowIncrement : Int) (n : Nat) :
    ∀ (k : Nat) (imagePtr rowEndPtr : Int) (cloud : List F32) (p : Nat),
      (p % 4 ≠ 3 ∨ p < 4 * k ∨ 4 * (k + n) ≤ p) →
      rd (mono8Loop colorMode pixels width rowIncrement n k imagePtr rowEndPtr cloud) p
        = rd cloud p := by
  induction n with
  | zero => intro k imagePtr rowEndPtr cloud p _; rfl
  | succ n ih =>
    intro k imagePtr rowEndPtr cloud p hp
    rw [mono8Loop]
    split <;>
      · rw [ih _ _ _ _ _ (by omega), rd_set, if_neg (by omega)]

theorem rd_mono8Loop_cell (colorMode : PointCloudColorMode) (pixels : List Nat)
    (width stride : Nat) (n : Nat) :
    ∀ (row col : Nat) (cloud : List F32), col < width →
      ∀ r c, c < width → row * width + col ≤ r * width + c →
        r * width + c < row * width + col + n → 4 * (r * width + c) + 3 < cloud.length →
        rd (mono8Loop colorMode pixels width ((stride : Int) - width) n (row * width + col)
              ((row * stride + col : Nat) : Int) ((row * stride + width : Nat) : Int) cloud)
            (4 * (r * width + c) + 3)
          = packMono8 colorMode (rdByte pixels ((r * stride + c : Nat) : Int))
              (rd cloud (4 * (r * width + c) + 3)) := by
  induction n with
  | zero => intro row col cloud _ r c _ h1 h2 _; omega
  | succ n ih =>
    intro row col cloud hcol r c hc h1 h2 hlen
    rw [mono8Loop]
    by_cases hend : ((row * stride + col : Nat) : Int) + 1 = ((row * stride + width : Nat) : Int)
    · rw [if_pos hend]
      have hcw : col + 1 = width := by push_cast at hend; omega
      have ek : row * width + col + 1 = (row + 1) * width + 0 := by
        rw [Nat.add_mul]; omega
      have ep : ((row * stride + col : Nat) : Int) + 1 + ((stride : Int) - width)
          = (((row + 1) * stride + 0 : Nat) : Int) := by
        push_cast; rw [← hcw]; push_cast; ring
      have ee : (((row + 1) * stride + 0 : Nat) : Int) + width
          = (((row + 1) * stride + width : Nat) : Int) := by
        push_cast; ring
      rw [ep, ee, ek]
      by_cases hj : r * width + c = row * width + col
      · obtain ⟨hr, hcc⟩ := row_col_unique width r c row col hc hcol hj
        subst hr; subst hcc
        rw [← ek, rd_mono8Loop_frame _ _ _ _ _ _ _ _ _ _ (by omega), rd_set,
          if_pos ⟨rfl, hlen⟩]
      · rw [ih (row + 1) 0 _ (by omega) r c hc (by omega) (by omega)
          (by rw [List.length_set]; exact hlen), rd_set, if_neg (by omega)]
    · rw [if_neg hend]
      have hcw : col + 1 < width := by push_cast at hend; omega
      have ek : row * width + col + 1 = row * width + (col + 1) := by omega
      have ep : ((row * stride + col : Nat) : Int) + 1
          = ((row * stride + (col + 1) : Nat) : Int) := by
        push_cast; ring
      rw [ep, ek]
      by_cases hj : r * width + c = row * width + col
      · obtain ⟨hr, hcc⟩ := row_col_unique width r c row col hc hcol hj
        subst hr; subst hcc
        rw [← ek, rd_mono8Loop_frame _ _ _ _ _ _ _ _ _ _ (by omega), rd_set,
          if_pos ⟨rfl, hlen⟩]
      · rw [ih row (col + 1) _ hcw r c hc (by omega) (by omega)
          (by rw [List.length_set]; exact hlen), rd_set, if_neg (by omega)]

theorem rdByte_lt (pixels : List Nat) (i : Int) : rdByte pixels i < 256 := by
  unfold rdByte
  split
  · omega
  · exact Nat.mod_lt _ (by omega)

theorem packRGB_of_bytes (r g b : Nat) (hr : r < 256) (hg : g < 256) (hb : b < 256) :
    packRGB r g b = ⟨(r <<< 16) ||| (g <<< 8) ||| b⟩ := by
  unfold packRGB
  congr 1
  apply Nat.mod_eq_of_lt
  have h1 : r <<< 16 < 2 ^ 32 := by
    rw [Nat.shiftLeft_eq]; omega
  have h2 : g <<< 8 < 2 ^ 32 := by
    rw [Nat.shiftLeft_eq]; omega
  have h3 : b < 2 ^ 32 := by omega
  exact Nat.or_lt_two_pow (Nat.or_lt_two_pow h1 h2) h3

theorem point_lt (width height r c : Nat) (hr : r < height) (hc : c < width) :
    r * width + c < width * height := by
  have h1 : (r + 1) * width ≤ height * width := Nat.mul_le_mul_right width hr
  rw [Nat.add_mul] at h1
  rw [Nat.mul_comm width height]
  omega

theorem rd_mono8_start (colorMode : PointCloudColorMode) (pixels : List Nat)
    (width height stride : Nat) (cloud : List F32) (r c : Nat)
    (hr : r < height) (hc : c < width) (hlen : 4 * (width * height) ≤ cloud.length) :
    rd (mono8Loop colorMode pixels width ((stride : Int) - width) (width * height) 0 0 width
          cloud) (4 * (r * width + c) + 3)
      = packMono8 colorMode (rdByte pixels ((r * stride + c : Nat) : Int))
          (rd cloud (4 * (r * width + c) + 3)) := by
  have hp := point_lt width height r c hr hc
  have h := rd_mono8Loop_cell colorMode pixels width stride (width * height) 0 0 cloud
    (by omega) r c hc (by omega) (by omega) (by omega)
  simpa using h

/-- C13: for an 8-bit mono left image of width and height at least 1 and a row
stride of at least the width, `copyPointCloudIntensity<RGB_COMBINED>` sets the
colour cell of point `r*width + c` to `(v<<16)|(v<<8)|v` for the image byte `v`
at offset `r*stride + c`; the x, y, z cells of every point are unchanged; and
the result does not depend on the padding bytes.  A pixel value of 200 gives
`(200<<16)|(200<<8)|200`. -/
theorem copyPointCloudIntensity_mono8_combined (width height : Nat) (left : Image)
    (cloud : List F32) (hw : 1 ≤ width) (_hh : 1 ≤ height)
    (hfmt : left.format = ImageFormat.FORMAT_8_BIT_MONO)
    (_hstride : width ≤ left.rowStride) (hcloud : 4 * (width * height) ≤ cloud.length) :
    ∃ out, copyPointCloudIntensity .RGB_COMBINED width height left cloud = .ok out ∧
      out.length = cloud.length ∧
      (∀ r c, r < height → c < width →
        rd out (4 * (r * width + c) + 3)
          = ⟨(rdByte left.pixels ((r * left.rowStride + c : Nat) : Int) <<< 16) |||
              (rdByte left.pixels ((r * left.rowStride + c : Nat) : Int) <<< 8) |||
              rdByte left.pixels ((r * left.rowStride + c : Nat) : Int)⟩) ∧
      (∀ p, p % 4 ≠ 3 → rd out p = rd cloud p) ∧
      (∀ left2 : Image, left2.format = ImageFormat.FORMAT_8_BIT_MONO →
        left2.rowStride = left.rowStride →
        (∀ r c, r < height → c < width →
          rdByte left2.pixels ((r * left.rowStride + c : Nat) : Int)
            = rdByte left.pixels ((r * left.rowStride + c : Nat) : Int)) →
        copyPointCloudIntensity .RGB_COMBINED width height left2 cloud = .ok out) ∧
      (∀ cell : F32,
        packMono8 .RGB_COMBINED 200 cell = ⟨(200 <<< 16) ||| (200 <<< 8) ||| 200⟩) := by
  refine ⟨_, by unfold copyPointCloudIntensity; rw [hfmt], ?_, ?_, ?_, ?_, ?_⟩
  · exact length_mono8Loop _ _ _ _ _ _ _ _ _
  · intro r c hr hc
    rw [rd_mono8_start _ _ _ _ _ _ r c hr hc hcloud]
    exact packRGB_of_bytes _ _ _ (rdByte_lt _ _) (rdByte_lt _ _) (rdByte_lt _ _)
  · intro p hp
    exact rd_mono8Loop_frame _ _ _ _ _ _ _ _ _ _ (Or.inl hp)
  · intro left2 hfmt2 hs2 hbytes
    unfold copyPointCloudIntensity
    rw [hfmt2, hs2]
    simp only [Outcome.ok.injEq]
    apply ext_rd
    · rw [length_mono8Loop, length_mono8Loop]
    · intro p hp
      rw [length_mono8Loop] at hp
      by_cases hm : p % 4 = 3
      · by_cases hin : p / 4 < width * height
        · have hr : p / 4 / width < height :=
            Nat.div_lt_of_lt_mul hin
          have hc : p / 4 % width < width := Nat.mod_lt _ (by omega)
          have hj : p = 4 * (p / 4 / width * width + p / 4 % width) + 3 := by
            have := Nat.div_add_mod (p / 4) width
            rw [Nat.mul_comm] at this
            omega
          rw [hj, rd_mono8_start _ _ _ _ _ _ _ _ hr hc hcloud,
            rd_mono8_start _ _ _ _ _ _ _ _ hr hc hcloud, hbytes _ _ hr hc]
        · rw [rd_mono8Loop_frame _ _ _ _ _ _ _ _ _ _ (by omega),
            rd_mono8Loop_frame _ _ _ _ _ _ _ _ _ _ (by omega)]
      · rw [rd_mono8Loop_frame _ _ _ _ _ _ _ _ _ _ (Or.inl hm),
          rd_mono8Loop_frame _ _ _ _ _ _ _ _ _ _ (Or.inl hm)]
  · intro cell
    rfl

/-! ### What the colour packing leaves of the prior payload -/

/-- C14 fails on the code: for a 12-bit mono image of width 1 and height 2 with a
row stride of 4 bytes, whose sample of row 1 at byte offset `1*4 + 2*0 = 4` is
32, `copyPointCloudIntensity<INTENSITY>` gives point 1 the intensity 255, taken
from the padding bytes at offsets 6 and 7, where the sample at offset 4 would
give 2. -/
theorem copyPointCloudIntensity_mono12_padding :
    2 * 1 ≤ paddedImage12.rowStride ∧
    rdByte paddedImage12.pixels 4 + 256 * rdByte paddedImage12.pixels 5 = 32 ∧
    packMono12 .INTENSITY 32 ⟨0⟩ = ⟨2⟩ ∧
    rdByte paddedImage12.pixels 6 + 256 * rdByte paddedImage12.pixels 7 = 4080 ∧
    copyPointCloudIntensity .INTENSITY 1 2 paddedImage12 (List.replicate 8 ⟨0⟩)
      = .ok [⟨0⟩, ⟨0⟩, ⟨0⟩, ⟨1⟩, ⟨0⟩, ⟨0⟩, ⟨0⟩, ⟨255⟩] := by
  refine ⟨by decide, by decide, by decide, by decide, ?_⟩
  decide

/-- C15 fails on the code: for an 8-bit RGB image of width 2 and height 2 with a
row stride of 8 bytes, the pixel of row 1, column 0 is (7, 8, 9) at the byte
offsets 8, 9, 10, but point 2 is packed from the bytes (99, 99, 7) at the
offsets 6, 7, 8, two of them padding, in combined RGB mode and in intensity
mode. -/
theorem copyPointCloudIntensity_rgb8_padding :
    3 * 2 ≤ paddedImageRGB.rowStride ∧
    (rdByte paddedImageRGB.pixels 8 = 7 ∧ rdByte paddedImageRGB.pixels 9 = 8 ∧
      rdByte paddedImageRGB.pixels 10 = 9) ∧
    copyPointCloudIntensity .RGB_COMBINED 2 2 paddedImageRGB (List.replicate 16 ⟨0⟩)
      = .ok [⟨0⟩, ⟨0⟩, ⟨0⟩, packRGB 1 2 3, ⟨0⟩, ⟨0⟩, ⟨0⟩, packRGB 4 5 6,
             ⟨0⟩, ⟨0⟩, ⟨0⟩, packRGB 99 99 7, ⟨0⟩, ⟨0⟩, ⟨0⟩, packRGB 8 9 10] ∧
    packRGB 99 99 7 ≠ packRGB 7 8 9 ∧
    copyPointCloudIntensity .INTENSITY 2 2 paddedImageRGB (List.replicate 16 ⟨0⟩)
      = .ok [⟨0⟩, ⟨0⟩, ⟨0⟩, ⟨2⟩, ⟨0⟩, ⟨0⟩, ⟨0⟩, ⟨5⟩,
             ⟨0⟩, ⟨0⟩, ⟨0⟩, ⟨76⟩, ⟨0⟩, ⟨0⟩, ⟨0⟩, ⟨9⟩] ∧
    (7 + 2 * 8 + 9) / 4 = 8 := by
  refine ⟨by decide, by decide, ?_, by decide, ?_, by decide⟩
  · decide
  · decide

/-- The basic data of the message are not refreshed when the resolution changes
at an equal byte size: after a 3x4 frame, the payload published for a 4x3 frame
still declares width 3 and height 4. -/
theorem stale_metadata_same_byte_size :
    (publishPointCloudMsg plainConfig closedStorage flatRecon
      (publishPointCloudMsg plainConfig closedStorage flatRecon (initPointCloud .NONE)
        (disparityFrame 3 4) 1).msg (disparityFrame 4 3) 2).published = true ∧
    (publishPointCloudMsg plainConfig closedStorage flatRecon
      (publishPointCloudMsg plainConfig closedStorage flatRecon (initPointCloud .NONE)
        (disparityFrame 3 4) 1).msg (disparityFrame 4 3) 2).msg.width = 3 ∧
    (publishPointCloudMsg plainConfig closedStorage flatRecon
      (publishPointCloudMsg plainConfig closedStorage flatRecon (initPointCloud .NONE)
        (disparityFrame 3 4) 1).msg (disparityFrame 4 3) 2).msg.height = 4 := by
  refine ⟨by decide, by decide, by decide⟩

/-! ### The theorems at concrete inputs -/

theorem gt_six_five : FVal.gt (rd twoPoints (4 * 0 + 0)).toVal (FVal.finite 5) = true := by
  have h : rd twoPoints (4 * 0 + 0) = ⟨0x40C00000⟩ := rfl
  rw [h]
  unfold F32.toVal
  norm_num [FVal.gt]

/-- C1 for the matrix with the entries 1 to 16: the first entry of row 1. -/
theorem qMatrixToRosCoords_rows_witness :
    sampleQ.length = 16 ∧ (List.replicate 16 (default : F32)).length = 16 ∧
    rd (qMatrixToRosCoords sampleQ (List.replicate 16 default)) (4 + 0)
      = (rd sampleQ 0).neg :=
  ⟨by decide, by decide,
    ((qMatrixToRosCoords_rows sampleQ (List.replicate 16 default) (by decide)
      (by decide)).2 0 (by decide)).2.1⟩

/-- C2 for the threshold 5.0 on axis 0 and a point with x = 6.0: the point
becomes NaN and its colour cell keeps the value 200. -/
theorem copyPointCloudClamped_spec_witness :
    twoPoints.length = 4 * 2 ∧ 4 * 2 ≤ twoSlots.length ∧
    rd (copyPointCloudClamped 0 (FVal.finite 5) twoPoints twoSlots 2) (4 * 0) = quietNaN ∧
    rd (copyPointCloudClamped 0 (FVal.finite 5) twoPoints twoSlots 2) (4 * 0 + 3)
      = rd twoSlots (4 * 0 + 3) :=
  ⟨by decide, by decide,
    (((copyPointCloudClamped_spec 0 (FVal.finite 5) twoPoints twoSlots 2 (Or.inl rfl)
      (by decide) (by decide)).2.2 0 (by decide)).1 gt_six_five).1,
    ((copyPointCloudClamped_spec 0 (FVal.finite 5) twoPoints twoSlots 2 (Or.inl rfl)
      (by decide) (by decide)).2.2 0 (by decide)).2.2⟩

/-- C3 for the same two points and threshold. -/
theorem copyPointCloudClamped_idempotent_witness :
    twoPoints.length = 4 * 2 ∧ 4 * 2 ≤ twoSlots.length ∧
    copyPointCloudClamped 0 (FVal.finite 5)
        (copyPointCloudClamped 0 (FVal.finite 5) twoPoints twoSlots 2)
        (copyPointCloudClamped 0 (FVal.finite 5) twoPoints twoSlots 2) 2
      = copyPointCloudClamped 0 (FVal.finite 5) twoPoints twoSlots 2 :=
  ⟨by decide, by decide,
    (copyPointCloudClamped_idempotent 0 (FVal.finite 5) twoPoints twoSlots 2 (Or.inl rfl)
      (by decide) (by decide)).1⟩

/-- C4 for a 4x3 frame on the message object `initPointCloud` leaves. -/
theorem publishPointCloudMsg_dataSize_witness :
    1 ≤ (disparityFrame 4 3).width ∧ 1 ≤ (disparityFrame 4 3).height ∧
    assembles plainConfig closedStorage flatRecon (disparityFrame 4 3) = true ∧
    (publishPointCloudMsg plainConfig closedStorage flatRecon (initPointCloud .NONE)
      (disparityFrame 4 3) 1).msg.dataSize
      = (disparityFrame 4 3).width * (disparityFrame 4 3).height * 16 :=
  ⟨by decide, by decide, by decide,
    ((publishPointCloudMsg_dataSize plainConfig closedStorage flatRecon (initPointCloud .NONE)
      (disparityFrame 4 3) 1 (by decide) (by decide)).2 (by decide)).2⟩

/-- C5, amended, for 4x3 -> 8x6 -> 4x3. -/
theorem reallocations_on_pixel_count_change_witness :
    (payloadOf 4 3 48 ⟨0⟩).dataSize = (disparityFrame 4 3).width * (disparityFrame 4 3).height * 16 ∧
    reallocations (publishPointClouds plainConfig closedStorage flatRecon (payloadOf 4 3 48 ⟨0⟩)
      [(disparityFrame 8 6, 1), (disparityFrame 4 3, 2)]) = 2 :=
  ⟨by decide,
    (reallocations_on_pixel_count_change plainConfig closedStorage flatRecon
      (payloadOf 4 3 48 ⟨0⟩) (disparityFrame 8 6) (disparityFrame 4 3) (disparityFrame 4 3)
      1 2 3 (by decide) (by decide) ⟨rfl, rfl⟩ (by decide) (by decide) (by decide)).1⟩

/-- C6, amended, for the sample 3200. -/
theorem packMono12_spec_witness :
    3200 ≤ 4095 ∧ (packMono12 .INTENSITY 3200 ⟨0⟩).bits % 256 = 3200 / 16 :=
  ⟨by decide, (packMono12_spec 3200 ⟨0⟩ (by decide)).1⟩

/-- C7, amended, two seconds after the epoch: the result is the same for a closed
storage and for one that holds a matrix. -/
theorem publishCameraInfo_without_calibration_witness :
    plainConfig.calibFile = "" ∧
    publishCameraInfo plainConfig closedStorage blankStereoCameraInfo startState 2000000000
        (disparityFrame 4 3)
      = publishCameraInfo plainConfig shortM1Storage blankStereoCameraInfo startState
          2000000000 (disparityFrame 4 3) :=
  ⟨rfl,
    (publishCameraInfo_without_calibration plainConfig shortM1Storage blankStereoCameraInfo
      startState 2000000000 (disparityFrame 4 3) rfl).2.1 closedStorage⟩

/-- C9 for a call two nanoseconds after the last publication. -/
theorem publishCameraInfo_rate_limit_witness :
    (CamInfoState.mk (some blankStereoCameraInfo) 5).camInfoMsg ≠ none ∧
    ∃ st1 out, publishCameraInfo plainConfig closedStorage blankStereoCameraInfo
      (CamInfoState.mk (some blankStereoCameraInfo) 5) 7 (disparityFrame 4 3)
        = .ok (st1, out) :=
  ⟨by simp,
    (publishCameraInfo_rate_limit plainConfig closedStorage blankStereoCameraInfo).2.2
      (CamInfoState.mk (some blankStereoCameraInfo) 5) 7 (disparityFrame 4 3) (by simp)⟩

/-! ### Orientation transform -/

/-- C11: in `processDataChannels`, when the call is not rate limited and an
inertial sample (x, y, z, w) is available, the rotation broadcast is
(x, -z, y, w) with `rosCoordinateSystem` and (x, y, z, w) without, every other
field but the stamp being kept; when no sample is available the transform is
broadcast with only its stamp changed; and when less than 10 ms have elapsed
since `currentTransform.header.stamp`, nothing is broadcast and the state is
unchanged. -/
theorem processDataChannels_spec (rosCoordinateSystem : Bool) (now : Int)
    (t : TransformStamped) :
    (now - t.stamp < tenMilliseconds →
      ∀ imu, processDataChannels rosCoordinateSystem now imu t = (t, none)) ∧
    (¬ now - t.stamp < tenMilliseconds →
      (∀ q : Quaternion,
        processDataChannels rosCoordinateSystem now (some q) t
          = ({ t with stamp := now
                      rotation := if rosCoordinateSystem then ⟨q.x, q.z.neg, q.y, q.w⟩
                                  else ⟨q.x, q.y, q.z, q.w⟩ },
             some { t with stamp := now
                           rotation := if rosCoordinateSystem then ⟨q.x, q.z.neg, q.y, q.w⟩
                                       else ⟨q.x, q.y, q.z, q.w⟩ })) ∧
      processDataChannels rosCoordinateSystem now none t
        = ({ t with stamp := now }, some { t with stamp := now })) := by
  refine ⟨?_, ?_⟩
  · intro h imu
    unfold processDataChannels
    rw [if_pos h]
  · intro h
    refine ⟨?_, ?_⟩
    · intro q
      unfold processDataChannels
      rw [if_neg h]
      cases rosCoordinateSystem <;> simp
    · unfold processDataChannels
      rw [if_neg h]

/-! ### Coordinate remap applied twice -/

theorem neg_neg_F32 (w : F32) : w.neg.neg = w := by
  unfold F32.neg
  simp only [Nat.xor_assoc, Nat.xor_self, Nat.xor_zero]

/-- C12: for a 16-element matrix M, `qMatrixToRosCoords` applied twice gives row
0 = minus row 1 of M, row 1 = minus row 2 of M, row 2 = row 0 of M and row 3 =
row 3 of M, a negation only flipping the sign bit; so the rows of M are
recovered from the result as row 0 = row 2, row 1 = minus row 0 and row 2 =
minus row 1. -/
theorem qMatrixToRosCoords_twice (M dst1 dst2 : List F32)
    (_hM : M.length = 16) (h1 : dst1.length = 16) (h2 : dst2.length = 16) :
    (∀ j, j < 4 →
      rd (qMatrixToRosCoords (qMatrixToRosCoords M dst1) dst2) j = (rd M (4 + j)).neg ∧
      rd (qMatrixToRosCoords (qMatrixToRosCoords M dst1) dst2) (4 + j)
        = (rd M (8 + j)).neg ∧
      rd (qMatrixToRosCoords (qMatrixToRosCoords M dst1) dst2) (8 + j) = rd M j ∧
      rd (qMatrixToRosCoords (qMatrixToRosCoords M dst1) dst2) (12 + j) = rd M (12 + j)) ∧
    (∀ j, j < 4 →
      rd M j = rd (qMatrixToRosCoords (qMatrixToRosCoords M dst1) dst2) (8 + j) ∧
      rd M (4 + j) = (rd (qMatrixToRosCoords (qMatrixToRosCoords M dst1) dst2) j).neg ∧
      rd M (8 + j)
        = (rd (qMatrixToRosCoords (qMatrixToRosCoords M dst1) dst2) (4 + j)).neg) ∧
    (∀ w : F32, w.neg.neg = w ∧ w.neg.bits % 2 ^ 31 = w.bits % 2 ^ 31) := by
  have hT : (qMatrixToRosCoords M dst1).length = 16 := by simp [qMatrixToRosCoords, h1]
  have key : ∀ j, j < 4 →
      rd (qMatrixToRosCoords (qMatrixToRosCoords M dst1) dst2) j = (rd M (4 + j)).neg ∧
      rd (qMatrixToRosCoords (qMatrixToRosCoords M dst1) dst2) (4 + j)
        = (rd M (8 + j)).neg ∧
      rd (qMatrixToRosCoords (qMatrixToRosCoords M dst1) dst2) (8 + j) = rd M j ∧
      rd (qMatrixToRosCoords (qMatrixToRosCoords M dst1) dst2) (12 + j) = rd M (12 + j) := by
    intro j hj
    have hcases : j = 0 ∨ j = 1 ∨ j = 2 ∨ j = 3 := by omega
    rcases hcases with h | h | h | h <;> subst h <;>
      simp [qMatrixToRosCoords, rd_set, h1, h2, neg_neg_F32]
  refine ⟨key, ?_, ?_⟩
  · intro j hj
    obtain ⟨k0, k1, k2, _⟩ := key j hj
    rw [k0, k1, k2, neg_neg_F32, neg_neg_F32]
    exact ⟨rfl, rfl, rfl⟩
  · intro w
    refine ⟨neg_neg_F32 w, ?_⟩
    unfold F32.neg
    apply Nat.eq_of_testBit_eq
    intro i
    simp only [Nat.testBit_mod_two_pow, Nat.testBit_xor, Nat.testBit_two_pow]
    by_cases h : i < 31
    · have : ¬ 31 = i := by omega
      simp [h, this]
    · simp [h]

/-- C11 for the sample (1, 2, 3, 4), 20 ms after the transform of `init`. -/
theorem processDataChannels_spec_witness :
    ¬ (20000000 : Int) - (initialTransform "world" "nerian_stereo" 0).stamp
        < tenMilliseconds ∧
    (processDataChannels true 20000000 (some sampleQuaternion)
      (initialTransform "world" "nerian_stereo" 0)).2.map (fun t => t.rotation)
      = some ⟨FVal.finite 1, FVal.finite (-3), FVal.finite 2, FVal.finite 4⟩ :=
  ⟨by decide, by
    rw [((processDataChannels_spec true 20000000
      (initialTransform "world" "nerian_stereo" 0)).2 (by decide)).1 sampleQuaternion]
    rfl⟩

/-- C12 for the matrix with the entries 1 to 16: row 2 of the result is row 0. -/
theorem qMatrixToRosCoords_twice_witness :
    sampleQ.length = 16 ∧ (List.replicate 16 (default : F32)).length = 16 ∧
    rd (qMatrixToRosCoords (qMatrixToRosCoords sampleQ (List.replicate 16 default))
        (List.replicate 16 default)) (8 + 0) = rd sampleQ 0 :=
  ⟨by decide, by decide,
    ((qMatrixToRosCoords_twice sampleQ (List.replicate 16 default)
      (List.replicate 16 default) (by decide) (by decide) (by decide)).1 0
      (by decide)).2.2.1⟩

/-- C13 for an image of width 2, height 1 and row stride 3 with the pixels 200
and 10. -/
theorem copyPointCloudIntensity_mono8_combined_witness :
    (1 ≤ 2 ∧ 1 ≤ 1 ∧ 2 ≤ (Image.mk ImageFormat.FORMAT_8_BIT_MONO 3 [200, 10, 99]).rowStride ∧
      4 * (2 * 1) ≤ (List.replicate 8 (F32.mk 5)).length) ∧
    ∃ out, copyPointCloudIntensity .RGB_COMBINED 2 1
        (Image.mk ImageFormat.FORMAT_8_BIT_MONO 3 [200, 10, 99]) (List.replicate 8 ⟨5⟩)
          = .ok out ∧
      out.length = (List.replicate 8 (F32.mk 5)).length :=
  ⟨⟨by decide, by decide, by decide, by decide⟩,
    (copyPointCloudIntensity_mono8_combined 2 1
      (Image.mk ImageFormat.FORMAT_8_BIT_MONO 3 [200, 10, 99]) (List.replicate 8 ⟨5⟩)
      (by decide) (by decide) rfl (by decide) (by decide)).imp fun _ h => ⟨h.1, h.2.1⟩⟩

end NerianStereo
